import Mathlib

/-!
Shallow embedding of the jmap-webmail client core: the JMAP protocol client
(response processing of `getEmails`, `getAllMailboxes`, `getEmail`,
`getThreadEmails`, and the mutation calls), the mail store's optimistic
mutation operations with mailbox-counter rebalancing, the thread-grouping
utility, and the settings store's export/import round trip.

Conventions of the embedding:
* JavaScript `Record<string, boolean>` membership/keyword maps use
  "key present and true" semantics; within the store every write stores the
  value `true`, so a membership map is embedded as the list of its true keys
  and `keywords.$seen` / `keywords.$flagged` truthiness as `Bool` fields.
* JavaScript numbers used as counters are embedded as `Int`, with the
  source's `Math.max(0, x)` clamping kept explicit.
* `receivedAt` timestamps (`new Date(x).getTime()`) are embedded as `Int`
  epoch milliseconds.
* Asynchronous operations suspend only at network calls; an operation's
  success path is embedded as a pure state transition parameterised by the
  parsed server response, returning the list of protocol calls it issued.
  Fallible transports are `Except String` values.
-/

namespace JmapWebmail

/-- Address entry of a `from`/`to`/... list: optional display name and address
(`name` absent or empty falls back to the address's local part). -/
structure EmailAddress where
  name : Option String
  email : String
deriving Repr, DecidableEq

/-- List-view email record as held by the store (reduced property set).
The mailbox-membership record is embedded as the list of keys mapped to
`true`; `$seen`/`$flagged` keyword truthiness as `Bool` fields. -/
structure Email where
  id : String
  threadId : String
  mailboxIds : List String
  seen : Bool
  flagged : Bool
  receivedAt : Int
  sender : List EmailAddress
  hasAttachment : Bool
deriving Repr, DecidableEq

/-- Store-level mailbox record; the rights record of the source is never
inspected by the operations under verification and is omitted. -/
structure Mailbox where
  id : String
  originalId : Option String
  name : String
  parentId : Option String
  role : Option String
  sortOrder : Int
  totalEmails : Int
  unreadEmails : Int
  totalThreads : Int
  unreadThreads : Int
  isSubscribed : Bool
  accountId : String
  accountName : String
  isShared : Bool
deriving Repr, DecidableEq

/-- Derived conversation group (`ThreadGroup` of `src/lib/jmap/types`);
`latestEmail` is `sortedEmails[0]`, absent on an empty member list. -/
structure ThreadGroup where
  threadId : String
  emails : List Email
  latestEmail : Option Email
  participantNames : List String
  hasUnread : Bool
  hasStarred : Bool
  hasAttachment : Bool
  emailCount : Nat
deriving Repr, DecidableEq

/-! ## Thread Grouping Utility (`src/lib/thread-utils.ts`) -/

/-- Comparator of the source's `(a, b) => new Date(b.receivedAt).getTime() -
new Date(a.receivedAt).getTime()`: `a` sorts no later than `b` when `a` was
received no earlier (newest first); JavaScript `Array.prototype.sort` is
stable, embedded via stable `List.mergeSort`. -/
def emailDescBefore (a b : Email) : Bool :=
  decide (b.receivedAt ≤ a.receivedAt)

/-- One step of filling the `threadMap` of `groupEmailsByThread`: push the
email onto the existing bucket of its thread id, or append a new bucket
(JavaScript `Map` preserves insertion order). -/
def addToThreadMap (m : List (String × List Email)) (tid : String) (e : Email) :
    List (String × List Email) :=
  if m.any (fun p => p.1 == tid) then
    m.map (fun p => if p.1 == tid then (p.1, p.2 ++ [e]) else p)
  else
    m ++ [(tid, [e])]

/-- The `threadMap` of `groupEmailsByThread` after the grouping loop. -/
def buildThreadMap (emails : List Email) : List (String × List Email) :=
  emails.foldl (fun m e => addToThreadMap m e.threadId e) []

/-- Lowercasing of an address used as the deduplication key
(`sender.email.toLowerCase()`), spelled over the character list. -/
def lowerStr (s : String) : String :=
  String.mk (s.data.map Char.toLower)

/-- The local part of an address (`sender.email.split('@')[0]`): the
characters before the first `@`, the whole string when there is none. -/
def localPart (s : String) : String :=
  String.mk (s.data.takeWhile (fun c => c ≠ '@'))

/-- Loop body of `getThreadParticipants`: walk the emails accumulating
first-seen sender names keyed by lowercased address, stopping once the cap
is reached. -/
def participantsGo (maxNames : Nat) :
    List Email → List String → List String → List String
  | [], _seenKeys, names => names
  | e :: rest, seenKeys, names =>
    let step :=
      match e.sender.head? with
      | some s =>
        let senderName :=
          match s.name with
          | some n => if n == "" then localPart s.email else n
          | none => localPart s.email
        let key := lowerStr s.email
        if seenKeys.contains key then (seenKeys, names)
        else (key :: seenKeys, names ++ [senderName])
      | none => (seenKeys, names)
    if maxNames ≤ step.2.length then step.2
    else participantsGo maxNames rest step.1 step.2

/-- `getThreadParticipants`: deduplicated first-seen sender names, capped. -/
def getThreadParticipants (emails : List Email) (maxNames : Nat := 4) :
    List String :=
  participantsGo maxNames emails [] []

/-- Group-object construction shared verbatim by `groupEmailsByThread` and
`mergeThreadEmails`: sort the members newest-first and compute the
any-member aggregates. -/
def mkThreadGroup (tid : String) (threadEmails : List Email) : ThreadGroup :=
  let sortedEmails := threadEmails.mergeSort emailDescBefore
  { threadId := tid
    emails := sortedEmails
    latestEmail := sortedEmails.head?
    participantNames := getThreadParticipants sortedEmails
    hasUnread := sortedEmails.any (fun e => !e.seen)
    hasStarred := sortedEmails.any (fun e => e.flagged)
    hasAttachment := sortedEmails.any (fun e => e.hasAttachment)
    emailCount := sortedEmails.length }

/-- `groupEmailsByThread` of `src/lib/thread-utils.ts`. -/
def groupEmailsByThread (emails : List Email) : List ThreadGroup :=
  if emails.isEmpty then []
  else (buildThreadMap emails).map (fun p => mkThreadGroup p.1 p.2)

/-- JavaScript `Map.set` on an association list: replace in place when the
key exists, append otherwise. -/
def mapSetEmail (m : List (String × Email)) (k : String) (v : Email) :
    List (String × Email) :=
  if m.any (fun p => p.1 == k) then
    m.map (fun p => if p.1 == k then (p.1, v) else p)
  else
    m ++ [(k, v)]

/-- First loop of `mergeThreadEmails`: key the existing group's members by
id (later duplicates replace earlier ones, as `Map.set` does). -/
def buildEmailMap (emails : List Email) (m0 : List (String × Email)) :
    List (String × Email) :=
  emails.foldl (fun m e => mapSetEmail m e.id e) m0

/-- Second loop of `mergeThreadEmails`: add each fetched email only when
its id is not yet a key (existing entries are never overwritten). -/
def addFetchedEmails (fetched : List Email) (m0 : List (String × Email)) :
    List (String × Email) :=
  fetched.foldl
    (fun m e => if m.any (fun p => p.1 == e.id) then m else m ++ [(e.id, e)]) m0

/-- `mergeThreadEmails` of `src/lib/thread-utils.ts`: key the existing
members by id, add fetched emails whose id is absent, then rebuild the
group from the merged values. -/
def mergeThreadEmails (existingGroup : ThreadGroup) (fetchedEmails : List Email) :
    ThreadGroup :=
  let emailMap := addFetchedEmails fetchedEmails (buildEmailMap existingGroup.emails [])
  mkThreadGroup existingGroup.threadId (emailMap.map (fun p => p.2))

/-! ## Settings Store (`src/stores/settings-store.ts`) -/

inductive FontSize | small | medium | large
deriving Repr, DecidableEq

inductive ListDensity | compact | regular | comfortable
deriving Repr, DecidableEq

inductive DeleteAction | trash | permanent
deriving Repr, DecidableEq

inductive ReplyMode | reply | replyAll
deriving Repr, DecidableEq

inductive DateFormat | regional | iso | custom
deriving Repr, DecidableEq

inductive TimeFormat | h12 | h24
deriving Repr, DecidableEq

inductive ExternalContentPolicy | ask | block | allow
deriving Repr, DecidableEq

/-- The sixteen recognized settings fields (the keys of `DEFAULT_SETTINGS`). -/
structure Settings where
  fontSize : FontSize
  listDensity : ListDensity
  animationsEnabled : Bool
  dateFormat : DateFormat
  timeFormat : TimeFormat
  firstDayOfWeek : Int
  markAsReadDelay : Int
  deleteAction : DeleteAction
  showPreview : Bool
  emailsPerPage : Int
  externalContentPolicy : ExternalContentPolicy
  autoSaveDraftInterval : Int
  sendConfirmation : Bool
  defaultReplyMode : ReplyMode
  sessionTimeout : Int
  debugMode : Bool
deriving Repr, DecidableEq

/-- A parsed JSON settings object restricted to the recognized keys: the
loop of `importSettings` applies exactly the keys present in the object
that occur in `DEFAULT_SETTINGS`, so an imported object is embedded as an
optional value per recognized field (`none` = key absent). -/
structure SettingsPatch where
  fontSize : Option FontSize := none
  listDensity : Option ListDensity := none
  animationsEnabled : Option Bool := none
  dateFormat : Option DateFormat := none
  timeFormat : Option TimeFormat := none
  firstDayOfWeek : Option Int := none
  markAsReadDelay : Option Int := none
  deleteAction : Option DeleteAction := none
  showPreview : Option Bool := none
  emailsPerPage : Option Int := none
  externalContentPolicy : Option ExternalContentPolicy := none
  autoSaveDraftInterval : Option Int := none
  sendConfirmation : Option Bool := none
  defaultReplyMode : Option ReplyMode := none
  sessionTimeout : Option Int := none
  debugMode : Option Bool := none
deriving Repr, DecidableEq

/-- `exportSettings`: serialize every recognized field (JSON round-tripping
of the enumerated / numeric / boolean values is lossless, so the produced
JSON object is embedded as the all-present patch). -/
def exportSettings (s : Settings) : SettingsPatch :=
  { fontSize := some s.fontSize
    listDensity := some s.listDensity
    animationsEnabled := some s.animationsEnabled
    dateFormat := some s.dateFormat
    timeFormat := some s.timeFormat
    firstDayOfWeek := some s.firstDayOfWeek
    markAsReadDelay := some s.markAsReadDelay
    deleteAction := some s.deleteAction
    showPreview := some s.showPreview
    emailsPerPage := some s.emailsPerPage
    externalContentPolicy := some s.externalContentPolicy
    autoSaveDraftInterval := some s.autoSaveDraftInterval
    sendConfirmation := some s.sendConfirmation
    defaultReplyMode := some s.defaultReplyMode
    sessionTimeout := some s.sessionTimeout
    debugMode := some s.debugMode }

/-- `importSettings` on a successfully parsed JSON object: each recognized
key present in the object overwrites the corresponding field, all other
fields keep their current value; returns `true`. -/
def importSettings (p : SettingsPatch) (s : Settings) : Bool × Settings :=
  (true,
   { fontSize := p.fontSize.getD s.fontSize
     listDensity := p.listDensity.getD s.listDensity
     animationsEnabled := p.animationsEnabled.getD s.animationsEnabled
     dateFormat := p.dateFormat.getD s.dateFormat
     timeFormat := p.timeFormat.getD s.timeFormat
     firstDayOfWeek := p.firstDayOfWeek.getD s.firstDayOfWeek
     markAsReadDelay := p.markAsReadDelay.getD s.markAsReadDelay
     deleteAction := p.deleteAction.getD s.deleteAction
     showPreview := p.showPreview.getD s.showPreview
     emailsPerPage := p.emailsPerPage.getD s.emailsPerPage
     externalContentPolicy := p.externalContentPolicy.getD s.externalContentPolicy
     autoSaveDraftInterval := p.autoSaveDraftInterval.getD s.autoSaveDraftInterval
     sendConfirmation := p.sendConfirmation.getD s.sendConfirmation
     defaultReplyMode := p.defaultReplyMode.getD s.defaultReplyMode
     sessionTimeout := p.sessionTimeout.getD s.sessionTimeout
     debugMode := p.debugMode.getD s.debugMode })

/-! ## Protocol Client (`src/lib/jmap/client.ts`)

The HTTP transport is the suspension point; each client method's response
processing is embedded as a pure function of the parsed response, with the
transport outcome an `Except String` value (`Except.error` = the underlying
`fetch`/`request` rejected or returned an unusable shape). -/

/-- Raw `Mailbox/get` record as sent by the server (`JMAPMailbox`);
absent numeric fields are `none` (the source applies `?? 0` defaults),
falsy `parentId` and `role` strings collapse to absent via the source's
truthiness checks. -/
structure JMAPRawMailbox where
  id : String
  name : String
  parentId : Option String := none
  role : Option String := none
  totalEmails : Option Int := none
  unreadEmails : Option Int := none
  totalThreads : Option Int := none
  unreadThreads : Option Int := none
  sortOrder : Option Int := none
  isSubscribed : Option Bool := none
deriving Repr, DecidableEq

/-- Mapping of one raw mailbox in `getMailboxes` (primary account only):
ids kept as-is and `originalId` left unset. -/
def mapPrimaryMailbox (primaryAccountId username : String)
    (accountName : Option String) (mb : JMAPRawMailbox) : Mailbox :=
  { id := mb.id
    originalId := none
    name := mb.name
    parentId := match mb.parentId with
      | some pid => if pid == "" then none else some pid
      | none => none
    role := match mb.role with
      | some r => if r == "" then none else some r
      | none => none
    sortOrder := mb.sortOrder.getD 0
    totalEmails := mb.totalEmails.getD 0
    unreadEmails := mb.unreadEmails.getD 0
    totalThreads := mb.totalThreads.getD 0
    unreadThreads := mb.unreadThreads.getD 0
    isSubscribed := mb.isSubscribed.getD true
    accountId := primaryAccountId
    accountName := match accountName with
      | some n => if n == "" then username else n
      | none => username
    isShared := false }

/-- The synthesized default Inbox returned when `getMailboxes` fails. -/
def defaultInboxFallback (primaryAccountId username : String) : Mailbox :=
  { id := "INBOX"
    originalId := none
    name := "Inbox"
    parentId := none
    role := some "inbox"
    sortOrder := 0
    totalEmails := 0
    unreadEmails := 0
    totalThreads := 0
    unreadThreads := 0
    isSubscribed := true
    accountId := primaryAccountId
    accountName := username
    isShared := false }

/-- `getMailboxes`: map the primary account's raw mailboxes, or fall back to
the synthesized Inbox on any failure (the method never throws). -/
def getMailboxesClient (primaryAccountId username : String)
    (accountName : Option String)
    (resp : Except String (List JMAPRawMailbox)) : List Mailbox :=
  match resp with
  | Except.ok rawMailboxes =>
      rawMailboxes.map (mapPrimaryMailbox primaryAccountId username accountName)
  | Except.error _ => [defaultInboxFallback primaryAccountId username]

/-- Mapping of one raw mailbox in `getAllMailboxes` for the account
`accountId`: shared-account mailbox and parent ids are namespaced as
`accountId ++ ":" ++ originalId`, primary-account ids kept as-is;
`originalId` always records the raw server id. -/
def mapAllAccountMailbox (accountId primaryAccountId username : String)
    (accountName : Option String) (mb : JMAPRawMailbox) : Mailbox :=
  let isPrimary := accountId == primaryAccountId
  { id := if isPrimary then mb.id else accountId ++ ":" ++ mb.id
    originalId := some mb.id
    name := mb.name
    parentId := match mb.parentId with
      | some pid =>
          if pid == "" then none
          else some (if isPrimary then pid else accountId ++ ":" ++ pid)
      | none => none
    role := match mb.role with
      | some r => if r == "" then none else some r
      | none => none
    sortOrder := mb.sortOrder.getD 0
    totalEmails := mb.totalEmails.getD 0
    unreadEmails := mb.unreadEmails.getD 0
    totalThreads := mb.totalThreads.getD 0
    unreadThreads := mb.unreadThreads.getD 0
    isSubscribed := mb.isSubscribed.getD true
    accountId := accountId
    accountName := match accountName with
      | some n => if n == "" then (if isPrimary then username else accountId) else n
      | none => if isPrimary then username else accountId
    isShared := !isPrimary }

/-- `getAllMailboxes`: iterate every visible account (pairs of account id
and optional account display name), skipping accounts whose fetch failed;
with no visible accounts fall back to `getMailboxes`. Both the per-account
failures and the fallback are caught internally, so the method is total. -/
def getAllMailboxesClient (accounts : List (String × Option String))
    (primaryAccountId username : String)
    (fetchFor : String → Except String (List JMAPRawMailbox)) : List Mailbox :=
  if accounts.isEmpty then
    getMailboxesClient primaryAccountId username
      ((accounts.find? (fun p => p.1 == primaryAccountId)).bind (fun p => p.2))
      (fetchFor primaryAccountId)
  else
    accounts.foldl
      (fun acc p =>
        match fetchFor p.1 with
        | Except.ok rawMailboxes =>
            acc ++ rawMailboxes.map
              (mapAllAccountMailbox p.1 primaryAccountId username p.2)
        | Except.error _ => acc)
      []

/-- Rewriting of an email's mailbox-membership keys into the shared-account
namespace, as done by `getEmails` / `getEmail` / `getThreadEmails` when the
queried account is not the primary one. -/
def namespaceEmailMailboxIds (accountId : String) (email : Email) : Email :=
  { email with mailboxIds := email.mailboxIds.map (fun mbId => accountId ++ ":" ++ mbId) }

/-- Successful batched `Email/query` + `Email/get` response: the query's
optional `total` and the get call's record list. -/
structure EmailQueryGetOk where
  queryTotal : Option Int
  list : List Email
deriving Repr, DecidableEq

/-- Result triple of `getEmails` (and of the store's page fetches). -/
structure EmailPage where
  emails : List Email
  hasMore : Bool
  total : Int
deriving Repr, DecidableEq

/-- `getEmails` response processing: `total` is the query's reported total
under JavaScript `|| 0` truthiness; `hasMore` uses `position + count <
total` when the total is positive and the full-page heuristic otherwise;
shared-account results get their membership keys namespaced. Any transport
failure yields the empty page (the method never throws). -/
def getEmailsClient (primaryAccountId : String) (accountId : Option String)
    (limit position : Nat) (resp : Except String EmailQueryGetOk) : EmailPage :=
  match resp with
  | Except.error _ => { emails := [], hasMore := false, total := 0 }
  | Except.ok r =>
    let total : Int := match r.queryTotal with
      | some t => if t == 0 then 0 else t
      | none => 0
    let hasMore : Bool :=
      if 0 < total then decide ((position : Int) + r.list.length < total)
      else r.list.length == limit
    let emails := match accountId with
      | some a =>
          if a != primaryAccountId then r.list.map (namespaceEmailMailboxIds a)
          else r.list
      | none => r.list
    { emails := emails, hasMore := hasMore, total := total }

/-- `getEmail` response processing: first record of the `Email/get` list,
namespaced when fetched under a shared account; `none` on error or
not-found. The header-derived security annotations the source then attaches
concern fields outside this embedding and never touch `mailboxIds`. -/
def getEmailClient (primaryAccountId : String) (accountId : Option String)
    (resp : Except String (List Email)) : Option Email :=
  match resp with
  | Except.error _ => none
  | Except.ok list =>
    match list.head? with
    | none => none
    | some email =>
        match accountId with
        | some a =>
            if a != primaryAccountId then some (namespaceEmailMailboxIds a email)
            else some email
        | none => some email

/-- `getThreadEmails` response processing: the fetched member records,
namespaced under a shared account, sorted newest-first; `[]` on error. -/
def getThreadEmailsClient (primaryAccountId : String) (accountId : Option String)
    (resp : Except String (List Email)) : List Email :=
  match resp with
  | Except.error _ => []
  | Except.ok list =>
    let emails := match accountId with
      | some a =>
          if a != primaryAccountId then list.map (namespaceEmailMailboxIds a)
          else list
      | none => list
    emails.mergeSort emailDescBefore

/-! ## Mail Store (`useEmailStore`)

State transitions of the store's operations on their success path, each
returning the protocol calls issued; an operation that early-returns issues
no call and leaves the state untouched. -/

/-- A protocol-client invocation issued by a store operation. -/
inductive ClientCall where
  | markAsRead (emailId : String) (read : Bool) (accountId : Option String)
  | toggleStar (emailId : String) (starred : Bool)
  | deleteEmail (emailId : String)
  | moveToTrash (emailId : String) (trashMailboxId : String) (accountId : Option String)
  | moveEmail (emailId : String) (toMailboxId : String)
  | batchMarkAsRead (emailIds : List String) (read : Bool)
  | batchDeleteEmails (emailIds : List String)
  | batchMoveEmails (emailIds : List String) (toMailboxId : String)
  | getEmails (mailboxId : String) (accountId : Option String) (limit : Nat) (position : Nat)
  | getAllMailboxes
deriving Repr, DecidableEq

/-- The store's state (fields the verified operations read or write; the
`Set`-valued fields are embedded as duplicate-free lists in insertion
order, `Map`-valued thread caches are not needed by the claims). -/
structure EmailStore where
  emails : List Email
  mailboxes : List Mailbox
  selectedEmail : Option Email
  selectedMailbox : String
  isLoading : Bool
  isLoadingMore : Bool
  error : Option String
  processingReadStatus : List String
  selectedEmailIds : List String
  hasMoreEmails : Bool
  totalEmails : Int
  lastPushUpdate : Option Int
  newEmailNotification : Option Email
deriving Repr, DecidableEq

/-- Account scoping used by the store's mutations: the selected mailbox's
`accountId` when it is a shared mailbox, absent otherwise. -/
def selectedAccountId (s : EmailStore) : Option String :=
  match s.mailboxes.find? (fun mb => mb.id == s.selectedMailbox) with
  | some mb => if mb.isShared then some mb.accountId else none
  | none => none

/-- The in-flight guard key of `markAsRead` (template `emailId-read`). -/
def processingKey (emailId : String) (read : Bool) : String :=
  emailId ++ "-" ++ (if read then "true" else "false")

/-- The part of the store's `markAsRead` executed before suspending at the
network call: the in-flight guard, the missing-email guard and the
already-in-desired-state guard; `none` means the operation returned without
issuing a call or changing state, otherwise the state with the guard key
added and the call issued. -/
def markAsReadStart (s : EmailStore) (emailId : String) (read : Bool) :
    Option (EmailStore × ClientCall) :=
  let key := processingKey emailId read
  if s.processingReadStatus.contains key then none
  else
    match s.emails.find? (fun e => e.id == emailId) with
    | none => none
    | some email =>
      if email.seen == read then none
      else
        some ({ s with processingReadStatus := s.processingReadStatus ++ [key] },
              ClientCall.markAsRead emailId read (selectedAccountId s))

/-- The local patch `markAsRead` applies after its network call succeeds:
clear the guard key, and when the email's recorded state still differs from
the target, flip its `$seen` keyword (also on the selected email) and
rebalance the unread counters of every mailbox holding it, clamped at
zero. -/
def markAsReadFinish (s : EmailStore) (emailId : String) (read : Bool) : EmailStore :=
  let key := processingKey emailId read
  let newProcessing := s.processingReadStatus.filter (fun k => k != key)
  match s.emails.find? (fun e => e.id == emailId) with
  | none => { s with processingReadStatus := newProcessing }
  | some emailInState =>
    if emailInState.seen == read then
      { s with processingReadStatus := newProcessing }
    else
      let delta : Int := if read then -1 else 1
      { s with
        emails := s.emails.map (fun e =>
          if e.id == emailId then { e with seen := read } else e)
        selectedEmail := match s.selectedEmail with
          | some se => if se.id == emailId then some { se with seen := read } else some se
          | none => none
        mailboxes := s.mailboxes.map (fun mailbox =>
          if emailInState.mailboxIds.contains mailbox.id then
            { mailbox with
              unreadEmails := max 0 (mailbox.unreadEmails + delta)
              unreadThreads := max 0 (mailbox.unreadThreads + delta) }
          else mailbox)
        processingReadStatus := newProcessing }

/-- A full uninterrupted `markAsRead` run on its success path. -/
def markAsReadRun (s : EmailStore) (emailId : String) (read : Bool) :
    EmailStore × List ClientCall :=
  match markAsReadStart s emailId read with
  | none => (s, [])
  | some (s1, c) => (markAsReadFinish s1 emailId read, [c])

/-- Trash-mailbox lookup of the store's `deleteEmail`: match by role and by
owning account for shared mailboxes, by role and non-shared flag for the
primary account. -/
def findTrashMailbox (mailboxes : List Mailbox) (accountId : Option String) :
    Option Mailbox :=
  mailboxes.find? (fun mb =>
    match accountId with
    | some aid => mb.role == some "trash" && mb.accountId == aid
    | none => mb.role == some "trash" && !mb.isShared)

/-- The store's `deleteEmail` on its success path: missing email is a
silent no-op; with the trash preference and a trash mailbox available the
email is moved there with a two-sided counter adjustment, otherwise the
record is destroyed with a one-sided decrement across its mailboxes. -/
def deleteEmailRun (s : EmailStore) (emailId : String)
    (deleteAction : DeleteAction) : EmailStore × List ClientCall :=
  match s.emails.find? (fun e => e.id == emailId) with
  | none => (s, [])
  | some email =>
    let isUnread := !email.seen
    let accountId := selectedAccountId s
    let trashLookup :=
      if deleteAction = DeleteAction.trash then findTrashMailbox s.mailboxes accountId
      else none
    match trashLookup with
    | some trashMailbox =>
      let trashId := trashMailbox.originalId.getD trashMailbox.id
      let updatedMailboxes := s.mailboxes.map (fun mailbox =>
        if email.mailboxIds.contains mailbox.id then
          { mailbox with
            totalEmails := max 0 (mailbox.totalEmails - 1)
            unreadEmails := if isUnread then max 0 (mailbox.unreadEmails - 1) else mailbox.unreadEmails
            totalThreads := max 0 (mailbox.totalThreads - 1)
            unreadThreads := if isUnread then max 0 (mailbox.unreadThreads - 1) else mailbox.unreadThreads }
        else if mailbox.id == trashMailbox.id then
          { mailbox with
            totalEmails := mailbox.totalEmails + 1
            unreadEmails := if isUnread then mailbox.unreadEmails + 1 else mailbox.unreadEmails
            totalThreads := mailbox.totalThreads + 1
            unreadThreads := if isUnread then mailbox.unreadThreads + 1 else mailbox.unreadThreads }
        else mailbox)
      ({ s with
          emails := s.emails.filter (fun e => e.id != emailId)
          selectedEmail := match s.selectedEmail with
            | some se => if se.id == emailId then none else some se
            | none => none
          mailboxes := updatedMailboxes },
       [ClientCall.moveToTrash emailId trashId accountId])
    | none =>
      let updatedMailboxes :=
        if isUnread then
          s.mailboxes.map (fun mailbox =>
            if email.mailboxIds.contains mailbox.id then
              { mailbox with
                totalEmails := max 0 (mailbox.totalEmails - 1)
                unreadEmails := max 0 (mailbox.unreadEmails - 1)
                totalThreads := max 0 (mailbox.totalThreads - 1)
                unreadThreads := max 0 (mailbox.unreadThreads - 1) }
            else mailbox)
        else
          s.mailboxes.map (fun mailbox =>
            if email.mailboxIds.contains mailbox.id then
              { mailbox with
                totalEmails := max 0 (mailbox.totalEmails - 1)
                totalThreads := max 0 (mailbox.totalThreads - 1) }
            else mailbox)
      ({ s with
          emails := s.emails.filter (fun e => e.id != emailId)
          selectedEmail := match s.selectedEmail with
            | some se => if se.id == emailId then none else some se
            | none => none
          mailboxes := updatedMailboxes },
       [ClientCall.deleteEmail emailId])

/-- The store's `moveToMailbox` on its success path: missing email is a
silent no-op; otherwise membership is replaced by the single destination,
decrementing every prior mailbox's counters and incrementing the
destination's, read-state-aware. -/
def moveToMailboxRun (s : EmailStore) (emailId destinationMailboxId : String) :
    EmailStore × List ClientCall :=
  match s.emails.find? (fun e => e.id == emailId) with
  | none => (s, [])
  | some email =>
    let isUnread := !email.seen
    let currentMailboxIds := email.mailboxIds
    let updatedMailboxes := s.mailboxes.map (fun mailbox =>
      if currentMailboxIds.contains mailbox.id then
        { mailbox with
          totalEmails := max 0 (mailbox.totalEmails - 1)
          unreadEmails := if isUnread then max 0 (mailbox.unreadEmails - 1) else mailbox.unreadEmails
          totalThreads := max 0 (mailbox.totalThreads - 1)
          unreadThreads := if isUnread then max 0 (mailbox.unreadThreads - 1) else mailbox.unreadThreads }
      else if mailbox.id == destinationMailboxId then
        { mailbox with
          totalEmails := mailbox.totalEmails + 1
          unreadEmails := if isUnread then mailbox.unreadEmails + 1 else mailbox.unreadEmails
          totalThreads := mailbox.totalThreads + 1
          unreadThreads := if isUnread then mailbox.unreadThreads + 1 else mailbox.unreadThreads }
      else mailbox)
    ({ s with
        emails := s.emails.map (fun e =>
          if e.id == emailId then { e with mailboxIds := [destinationMailboxId] } else e)
        selectedEmail := match s.selectedEmail with
          | some se =>
              if se.id == emailId then some { se with mailboxIds := [destinationMailboxId] }
              else some se
          | none => none
        mailboxes := updatedMailboxes },
     [ClientCall.moveEmail emailId destinationMailboxId])

/-- The store's `toggleStar` on its success path: missing email is a silent
no-op; otherwise the `$flagged` keyword is flipped on the list entry and on
the selected email when it is the same id (no counter rebalancing). -/
def toggleStarRun (s : EmailStore) (emailId : String) : EmailStore × List ClientCall :=
  match s.emails.find? (fun e => e.id == emailId) with
  | none => (s, [])
  | some email =>
    let isFlagged := email.flagged
    ({ s with
        emails := s.emails.map (fun e =>
          if e.id == emailId then { e with flagged := !isFlagged } else e)
        selectedEmail := match s.selectedEmail with
          | some se => if se.id == emailId then some { se with flagged := !isFlagged } else some se
          | none => none },
     [ClientCall.toggleStar emailId (!isFlagged)])

/-- The store's `batchMarkAsRead` on its success path: empty selection is a
no-op; otherwise one batched call, the selected emails' `$seen` patched and
each mailbox's unread counters adjusted by the aggregated per-email deltas,
clamped at zero; the selection is cleared. -/
def batchMarkAsReadRun (s : EmailStore) (read : Bool) : EmailStore × List ClientCall :=
  if s.selectedEmailIds.isEmpty then (s, [])
  else
    let affectedEmails := s.emails.filter (fun e => s.selectedEmailIds.contains e.id)
    let updatedMailboxes := s.mailboxes.map (fun mailbox =>
      let deltaUnread : Int := affectedEmails.foldl (fun acc email =>
        if email.mailboxIds.contains mailbox.id then
          if email.seen != read then acc + (if read then -1 else 1) else acc
        else acc) 0
      { mailbox with
        unreadEmails := max 0 (mailbox.unreadEmails + deltaUnread)
        unreadThreads := max 0 (mailbox.unreadThreads + deltaUnread) })
    ({ s with
        emails := s.emails.map (fun email =>
          if s.selectedEmailIds.contains email.id then { email with seen := read } else email)
        mailboxes := updatedMailboxes
        selectedEmailIds := []
        isLoading := false
        error := none },
     [ClientCall.batchMarkAsRead s.selectedEmailIds read])

/-- The store's `batchDelete` on its success path: empty selection is a
no-op; otherwise one batched destroy, the selected emails removed and each
mailbox's four counters adjusted by the aggregated per-email deltas,
clamped at zero; selection and selected email are cleared. -/
def batchDeleteRun (s : EmailStore) : EmailStore × List ClientCall :=
  if s.selectedEmailIds.isEmpty then (s, [])
  else
    let deletedEmails := s.emails.filter (fun e => s.selectedEmailIds.contains e.id)
    let updatedMailboxes := s.mailboxes.map (fun mailbox =>
      let deltas : Int × Int := deletedEmails.foldl (fun acc email =>
        if email.mailboxIds.contains mailbox.id then
          (acc.1 - 1, if !email.seen then acc.2 - 1 else acc.2)
        else acc) (0, 0)
      { mailbox with
        totalEmails := max 0 (mailbox.totalEmails + deltas.1)
        unreadEmails := max 0 (mailbox.unreadEmails + deltas.2)
        totalThreads := max 0 (mailbox.totalThreads + deltas.1)
        unreadThreads := max 0 (mailbox.unreadThreads + deltas.2) })
    ({ s with
        emails := s.emails.filter (fun e => !s.selectedEmailIds.contains e.id)
        mailboxes := updatedMailboxes
        selectedEmailIds := []
        selectedEmail := none
        isLoading := false
        error := none },
     [ClientCall.batchDeleteEmails s.selectedEmailIds])

/-- The store's `fetchEmails` on its success path, parameterised by the
page the client returned: resolves the shared-account scoping and original
id of the target mailbox, issues one `getEmails` call and replaces the
page state. -/
def fetchEmailsRun (s : EmailStore) (mailboxId : Option String)
    (emailsPerPage : Nat) (result : EmailPage) : EmailStore × List ClientCall :=
  let s0 := { s with isLoading := true, error := none }
  let targetMailboxId := match mailboxId with
    | some mid => if mid == "" then s0.selectedMailbox else mid
    | none => s0.selectedMailbox
  let mailbox := s0.mailboxes.find? (fun mb => mb.id == targetMailboxId)
  let accountId := match mailbox with
    | some mb => if mb.isShared then some mb.accountId else none
    | none => none
  let jmapMailboxId := match mailbox with
    | some mb => match mb.originalId with
      | some oid => if oid == "" then targetMailboxId else oid
      | none => targetMailboxId
    | none => targetMailboxId
  ({ s0 with
      emails := result.emails
      hasMoreEmails := result.hasMore
      totalEmails := result.total
      isLoading := false },
   [ClientCall.getEmails jmapMailboxId accountId emailsPerPage 0])

/-- The store's `batchMoveToMailbox` on its success path: empty selection
is a no-op; otherwise one batched move call, the moved emails removed from
the current view, the selection cleared, and the page refetched via
`fetchEmails` — the mailbox counters are not touched. -/
def batchMoveToMailboxRun (s : EmailStore) (toMailboxId : String)
    (emailsPerPage : Nat) (refetched : EmailPage) : EmailStore × List ClientCall :=
  if s.selectedEmailIds.isEmpty then (s, [])
  else
    let s1 := { s with
      emails := s.emails.filter (fun e => !s.selectedEmailIds.contains e.id)
      selectedEmailIds := []
      isLoading := false
      error := none }
    let refetch := fetchEmailsRun s1 (some s.selectedMailbox) emailsPerPage refetched
    (refetch.1, ClientCall.batchMoveEmails s.selectedEmailIds toMailboxId :: refetch.2)

/-- The store's `fetchMailboxes` applied to the mailbox list produced by
the client's `getAllMailboxes` (a total function, so the store's catch
branch is unreachable from a transport failure): clears the error state,
stores the list and auto-selects the primary account's inbox only when no
mailbox is selected yet. -/
def fetchMailboxesApply (s : EmailStore) (mailboxes : List Mailbox) : EmailStore :=
  let s0 := { s with isLoading := true, error := none }
  if s0.selectedMailbox == "" then
    match mailboxes.find? (fun m => m.role == some "inbox" && !m.isShared) with
    | some inboxMailbox =>
        { s0 with mailboxes := mailboxes, selectedMailbox := inboxMailbox.id, isLoading := false }
    | none => { s0 with mailboxes := mailboxes, isLoading := false }
  else { s0 with mailboxes := mailboxes, isLoading := false }

/-- The store's `fetchMailboxes` composed with the client's
`getAllMailboxes` over per-account transport outcomes. -/
def fetchMailboxesRun (s : EmailStore) (accounts : List (String × Option String))
    (primaryAccountId username : String)
    (fetchFor : String → Except String (List JMAPRawMailbox)) :
    EmailStore × List ClientCall :=
  (fetchMailboxesApply s (getAllMailboxesClient accounts primaryAccountId username fetchFor),
   [ClientCall.getAllMailboxes])

/-- The store's `refreshCurrentMailbox`: no-op without a selected mailbox;
otherwise refetch the first page (the client's `getEmails` is total, so the
catch branch is unreachable from a transport failure — and by design it
would not set the error state either), fire the new-mail notification when
the first email's id changed, and replace the page state without touching
`error`. -/
def refreshCurrentMailboxRun (s : EmailStore) (emailsPerPage : Nat)
    (primaryAccountId : String) (fetchResp : Except String EmailQueryGetOk) :
    EmailStore × List ClientCall :=
  if s.selectedMailbox == "" then (s, [])
  else
    let mailbox := s.mailboxes.find? (fun mb => mb.id == s.selectedMailbox)
    let accountId := match mailbox with
      | some mb => if mb.isShared then some mb.accountId else none
      | none => none
    let jmapMailboxId := match mailbox with
      | some mb => match mb.originalId with
        | some oid => if oid == "" then s.selectedMailbox else oid
        | none => s.selectedMailbox
      | none => s.selectedMailbox
    let result := getEmailsClient primaryAccountId accountId emailsPerPage 0 fetchResp
    let currentFirstEmailId := s.emails.head?.map (fun e => e.id)
    let newFirstEmailId := result.emails.head?.map (fun e => e.id)
    let s1 := match result.emails.head? with
      | some firstEmail =>
          if currentFirstEmailId != newFirstEmailId then
            { s with newEmailNotification := some firstEmail }
          else s
      | none => s
    ({ s1 with
        emails := result.emails
        hasMoreEmails := result.hasMore
        totalEmails := result.total },
     [ClientCall.getEmails jmapMailboxId accountId emailsPerPage 0])

/-- Change-type flags of one account's entry in a polling change
descriptor (presence of a changed `Email` / `Mailbox` state token). -/
structure TypeChanges where
  emailChanged : Bool
  mailboxChanged : Bool
deriving Repr, DecidableEq

/-- A change descriptor delivered by the polling mechanism, keyed by
account id. -/
structure StateChange where
  changed : List (String × TypeChanges)
deriving Repr, DecidableEq

/-- The store's `handleStateChange`: stamp the push timestamp, ignore
descriptors without an entry for the client's account, refresh the current
mailbox's first page on a changed Email token and refetch the mailbox tree
on a changed Mailbox token. Both sub-operations are total, so the handler's
own catch (which would set the error state) is unreachable. -/
def handleStateChangeRun (s : EmailStore) (change : StateChange) (now : Int)
    (clientAccountId : String) (emailsPerPage : Nat)
    (emailFetchResp : Except String EmailQueryGetOk)
    (accounts : List (String × Option String)) (username : String)
    (mailboxFetchFor : String → Except String (List JMAPRawMailbox)) :
    EmailStore × List ClientCall :=
  let s0 := { s with lastPushUpdate := some now }
  match change.changed.find? (fun p => p.1 == clientAccountId) with
  | none => (s0, [])
  | some entry =>
    let step1 :=
      if entry.2.emailChanged then
        refreshCurrentMailboxRun s0 emailsPerPage clientAccountId emailFetchResp
      else (s0, [])
    let step2 :=
      if entry.2.mailboxChanged then
        fetchMailboxesRun step1.1 accounts clientAccountId username mailboxFetchFor
      else (step1.1, [])
    (step2.1, step1.2 ++ step2.2)

/-! ## Protocol Client mutation-response handling

Each mutation method awaits `request` (whose transport failures propagate
to the caller) and then inspects — or ignores — the parsed method
responses. The handlers below embed exactly that inspection: the input is
the parsed `methodResponses` list, the output `Except.error` is the thrown
error's message. -/

/-- One entry of a notCreated/notUpdated error map. -/
structure SetError where
  description : Option String
  type : Option String
deriving Repr, DecidableEq

/-- Parsed result object of one method response (the source types this as
a flexible record; only the fields the handlers read are embedded).
`created` maps creation ids to the server-assigned ids. -/
structure MethodResult where
  notCreated : Option (List (String × SetError)) := none
  notUpdated : Option (List (String × SetError)) := none
  created : List (String × String) := []
  description : Option String := none
  type : Option String := none
deriving Repr, DecidableEq

/-- `firstError?.description || firstError?.type || fallback` over the
first entry of an error map (JavaScript `||` treats the empty string and
an absent field alike). -/
def firstSetErrorMessage (errors : List (String × SetError)) (fallback : String) :
    String :=
  match errors.head? with
  | some p =>
    match p.2.description with
    | some d =>
        if d == "" then
          match p.2.type with
          | some t => if t == "" then fallback else t
          | none => fallback
        else d
    | none =>
        match p.2.type with
        | some t => if t == "" then fallback else t
        | none => fallback
  | none => fallback

/-- `markAsRead` ignores the `Email/set` response entirely: it resolves
successfully whatever the response carries. -/
def markAsReadHandle (_resp : List (String × MethodResult)) : Except String Unit :=
  Except.ok ()

/-- `batchMarkAsRead` ignores the `Email/set` response entirely. -/
def batchMarkAsReadHandle (_resp : List (String × MethodResult)) : Except String Unit :=
  Except.ok ()

/-- `toggleStar` ignores the `Email/set` response entirely. -/
def toggleStarHandle (_resp : List (String × MethodResult)) : Except String Unit :=
  Except.ok ()

/-- `updateEmailKeywords` ignores the `Email/set` response entirely. -/
def updateEmailKeywordsHandle (_resp : List (String × MethodResult)) : Except String Unit :=
  Except.ok ()

/-- `deleteEmail` ignores the `Email/set` response entirely. -/
def deleteEmailHandle (_resp : List (String × MethodResult)) : Except String Unit :=
  Except.ok ()

/-- `moveToTrash` ignores the `Email/set` response entirely. -/
def moveToTrashHandle (_resp : List (String × MethodResult)) : Except String Unit :=
  Except.ok ()

/-- `batchDeleteEmails` ignores the `Email/set` response entirely. -/
def batchDeleteEmailsHandle (_resp : List (String × MethodResult)) : Except String Unit :=
  Except.ok ()

/-- `batchMoveEmails` ignores the `Email/set` response entirely. -/
def batchMoveEmailsHandle (_resp : List (String × MethodResult)) : Except String Unit :=
  Except.ok ()

/-- `moveEmail` ignores the `Email/set` response entirely. -/
def moveEmailHandle (_resp : List (String × MethodResult)) : Except String Unit :=
  Except.ok ()

/-- `createDraft` response handling: pick the create call's response (index
1 when an old draft was destroyed first), fail with the first
notCreated/notUpdated entry's description or type when such a map is
present, return the created record's server id on success, and fail
generically on any unexpected shape. -/
def createDraftHandle (hasDraftId : Bool) (emailId : String)
    (resp : List (String × MethodResult)) : Except String String :=
  let responseIndex := if hasDraftId then 1 else 0
  match resp[responseIndex]? with
  | some p =>
    if p.1 == "Email/set" then
      let result := p.2
      match (match result.notCreated with
             | some e => some e
             | none => result.notUpdated) with
      | some errors => Except.error (firstSetErrorMessage errors "Failed to save draft")
      | none =>
        match result.created.find? (fun c => c.1 == emailId) with
        | some c => Except.ok c.2
        | none => Except.error "Failed to save draft"
    else Except.error "Failed to save draft"
  | none => Except.error "Failed to save draft"

/-- One step of `sendEmail`'s response loop: a method-level error response
fails with its description (or a generic message naming its type), and a
notCreated/notUpdated map fails with its first entry's description or
type. -/
def sendEmailCheckOne (p : String × MethodResult) : Option String :=
  if "/error".data.isSuffixOf p.1.data then
    some (match p.2.description with
      | some d =>
          if d == "" then "Failed to send email: " ++ p.2.type.getD "undefined"
          else d
      | none => "Failed to send email: " ++ p.2.type.getD "undefined")
  else
    match (match p.2.notCreated with
           | some e => some e
           | none => p.2.notUpdated) with
    | some errors => some (firstSetErrorMessage errors "Failed to send email")
    | none => none

/-- `sendEmail` response handling: scan the method responses in order and
fail at the first error-carrying one. -/
def sendEmailHandle (resp : List (String × MethodResult)) : Except String Unit :=
  match resp.findSome? sendEmailCheckOne with
  | some msg => Except.error msg
  | none => Except.ok ()

/-! ## Concrete fixtures

Sample values used by the scenario instances, the witnesses and the
counterexamples. -/

/-- A minimal list-view email fixture. -/
def sampleEmail (i tid : String) (r : Int) (sn : Bool) : Email :=
  { id := i
    threadId := tid
    mailboxIds := ["inbox"]
    seen := sn
    flagged := false
    receivedAt := r
    sender := [{ name := some ("Sender " ++ i), email := i ++ "@example.com" }]
    hasAttachment := false }

/-- A mailbox fixture with the four counters given explicitly. -/
def sampleMailbox (i : String) (role : Option String) (t u tt ut : Int)
    (shared : Bool) : Mailbox :=
  { id := i
    originalId := none
    name := i
    parentId := none
    role := role
    sortOrder := 0
    totalEmails := t
    unreadEmails := u
    totalThreads := tt
    unreadThreads := ut
    isSubscribed := true
    accountId := "acct"
    accountName := "me"
    isShared := shared }

/-- The trash-move scenario state: one unread email `a`, member of Inbox
only, selected for batch operations; Inbox at `{5,2,5,2}` and Trash at
`{3,1,3,1}`. -/
def sampleStore : EmailStore :=
  { emails := [sampleEmail "a" "t1" 5 false]
    mailboxes := [sampleMailbox "inbox" (some "inbox") 5 2 5 2 false,
                  sampleMailbox "trash" (some "trash") 3 1 3 1 false]
    selectedEmail := none
    selectedMailbox := "inbox"
    isLoading := false
    isLoadingMore := false
    error := none
    processingReadStatus := []
    selectedEmailIds := ["a"]
    hasMoreEmails := false
    totalEmails := 1
    lastPushUpdate := none
    newEmailNotification := none }

/-- The empty page result. -/
def emptyPage : EmailPage := { emails := [], hasMore := false, total := 0 }

/-- An email living in the raw server mailbox `INBOX`. -/
def sharedEmail : Email :=
  { sampleEmail "a" "t1" 5 false with mailboxIds := ["INBOX"] }

/-- A raw `INBOX` record as returned by `Mailbox/get`. -/
def rawINBOX : JMAPRawMailbox := { id := "INBOX", name := "Inbox" }

/-- A one-email query response reporting total 4. -/
def pageRespTotal : EmailQueryGetOk :=
  { queryTotal := some 4, list := [sampleEmail "x" "t" 1 true] }

/-- A one-email query response with no reported total. -/
def pageRespNoTotal : EmailQueryGetOk :=
  { queryTotal := none, list := [sampleEmail "x" "t" 1 true] }

/-- A one-email query response under the shared account fixture. -/
def pageRespShared : EmailQueryGetOk :=
  { queryTotal := some 1, list := [sharedEmail] }

/-- A mailbox content of five emails, newest first (the order the server's
`receivedAt`-descending query returns them in). -/
def inboxFive : List Email :=
  [sampleEmail "e1" "t1" 50 true,
   sampleEmail "e2" "t2" 40 false,
   sampleEmail "e3" "t3" 30 true,
   sampleEmail "e4" "t4" 20 false,
   sampleEmail "e5" "t5" 10 true]

/-- An `Email/set` method response carrying a notUpdated error map. -/
def sampleErrorResponse : List (String × MethodResult) :=
  [("Email/set",
    { notUpdated := some [("e1", { description := some "boom", type := some "invalidProperties" })] })]

/-! Spec-side comparison definitions: the exact signed counter deltas the
specification associates with a single email transition, written without
the implementation's zero-clamps, to be compared with the store's updates. -/

/-- Spec-side: the exact unread-counter delta of a read-state change
(`-1` when marking read, `+1` when marking unread). -/
def specUnreadDelta (read : Bool) (mb : Mailbox) : Mailbox :=
  { mb with
    unreadEmails := mb.unreadEmails + (if read then -1 else 1)
    unreadThreads := mb.unreadThreads + (if read then -1 else 1) }

/-- Spec-side: the exact counter delta of an email (with the given seen
state) leaving a mailbox. -/
def specLeaveDelta (seen : Bool) (mb : Mailbox) : Mailbox :=
  { mb with
    totalEmails := mb.totalEmails - 1
    unreadEmails := if seen then mb.unreadEmails else mb.unreadEmails - 1
    totalThreads := mb.totalThreads - 1
    unreadThreads := if seen then mb.unreadThreads else mb.unreadThreads - 1 }

/-- Spec-side: the exact counter delta of an email (with the given seen
state) entering a mailbox. -/
def specEnterDelta (seen : Bool) (mb : Mailbox) : Mailbox :=
  { mb with
    totalEmails := mb.totalEmails + 1
    unreadEmails := if seen then mb.unreadEmails else mb.unreadEmails + 1
    totalThreads := mb.totalThreads + 1
    unreadThreads := if seen then mb.unreadThreads else mb.unreadThreads + 1 }

/-- Non-negativity of a mailbox's four counters. -/
def countersNonneg (mb : Mailbox) : Prop :=
  0 ≤ mb.totalEmails ∧ 0 ≤ mb.unreadEmails ∧ 0 ≤ mb.totalThreads ∧ 0 ≤ mb.unreadThreads

instance (mb : Mailbox) : Decidable (countersNonneg mb) := by
  unfold countersNonneg
  infer_instance

/-! # Theorems -/

/-- Helper: membership of a mapped list comes from membership of the
original. -/
theorem mem_map_elim {α β : Type} {f : α → β} {l : List α} {b : β}
    (h : b ∈ l.map f) : ∃ a ∈ l, f a = b := by
  simpa using h

/-- C9: for every reachable settings state, importing the exported settings
object returns `true` and restores every recognized field; more generally,
an import of an object with any subset of recognized keys sets exactly the
present fields and leaves the rest unchanged. -/
theorem settings_import_export_roundtrip (s : Settings) :
    importSettings (exportSettings s) s = (true, s) ∧
    ∀ p : SettingsPatch,
      (importSettings p s).1 = true ∧
      (importSettings p s).2.fontSize = p.fontSize.getD s.fontSize ∧
      (importSettings p s).2.listDensity = p.listDensity.getD s.listDensity ∧
      (importSettings p s).2.animationsEnabled = p.animationsEnabled.getD s.animationsEnabled ∧
      (importSettings p s).2.dateFormat = p.dateFormat.getD s.dateFormat ∧
      (importSettings p s).2.timeFormat = p.timeFormat.getD s.timeFormat ∧
      (importSettings p s).2.firstDayOfWeek = p.firstDayOfWeek.getD s.firstDayOfWeek ∧
      (importSettings p s).2.markAsReadDelay = p.markAsReadDelay.getD s.markAsReadDelay ∧
      (importSettings p s).2.deleteAction = p.deleteAction.getD s.deleteAction ∧
      (importSettings p s).2.showPreview = p.showPreview.getD s.showPreview ∧
      (importSettings p s).2.emailsPerPage = p.emailsPerPage.getD s.emailsPerPage ∧
      (importSettings p s).2.externalContentPolicy = p.externalContentPolicy.getD s.externalContentPolicy ∧
      (importSettings p s).2.autoSaveDraftInterval = p.autoSaveDraftInterval.getD s.autoSaveDraftInterval ∧
      (importSettings p s).2.sendConfirmation = p.sendConfirmation.getD s.sendConfirmation ∧
      (importSettings p s).2.defaultReplyMode = p.defaultReplyMode.getD s.defaultReplyMode ∧
      (importSettings p s).2.sessionTimeout = p.sessionTimeout.getD s.sessionTimeout ∧
      (importSettings p s).2.debugMode = p.debugMode.getD s.debugMode := by
  constructor
  · cases s
    simp [importSettings, exportSettings]
  · intro p
    refine ⟨rfl, ?_, ?_, ?_, ?_, ?_, ?_, ?_, ?_, ?_, ?_, ?_, ?_, ?_, ?_, ?_, ?_⟩ <;> rfl

/-- C10: the store operations `markAsRead`, `deleteEmail`, `toggleStar` and
`moveToMailbox` are silent no-ops for an email id not present in the
current email list: no protocol call is issued, no state field changes and
no error is recorded. -/
theorem store_missing_email_noop (s : EmailStore) (emailId dest : String)
    (read : Bool) (action : DeleteAction)
    (h : ∀ e ∈ s.emails, e.id ≠ emailId) :
    markAsReadRun s emailId read = (s, []) ∧
    deleteEmailRun s emailId action = (s, []) ∧
    toggleStarRun s emailId = (s, []) ∧
    moveToMailboxRun s emailId dest = (s, []) := by
  have hfind : s.emails.find? (fun e => e.id == emailId) = none := by
    apply List.find?_eq_none.mpr
    intro e he
    simpa using h e he
  refine ⟨?_, ?_, ?_, ?_⟩
  · unfold markAsReadRun markAsReadStart
    rw [hfind]
    by_cases hc : s.processingReadStatus.contains (processingKey emailId read) <;> simp [hc]
  · unfold deleteEmailRun
    rw [hfind]
  · unfold toggleStarRun
    rw [hfind]
  · unfold moveToMailboxRun
    rw [hfind]

/-- C10 witness: the operations at a concrete absent id on the scenario
store. -/
theorem store_missing_email_noop_witness :
    markAsReadRun sampleStore "zz" true = (sampleStore, []) ∧
    deleteEmailRun sampleStore "zz" DeleteAction.trash = (sampleStore, []) ∧
    toggleStarRun sampleStore "zz" = (sampleStore, []) ∧
    moveToMailboxRun sampleStore "zz" "archive" = (sampleStore, []) :=
  store_missing_email_noop sampleStore "zz" "archive" true DeleteAction.trash
    (by decide)

/-- C3: `getEmails` reports `hasMore` from the server total when a positive
total is present (`position + count < total`), and from the full-page
heuristic (`count = limit`) otherwise; against a mailbox holding five
emails, a page of limit 2 at position 0 returns 2 emails with
`hasMore = true` and at position 4 returns 1 email with `hasMore = false`. -/
theorem getEmails_hasMore (primary : String) (accountId : Option String)
    (limit position : Nat) (r : EmailQueryGetOk) :
    (∀ t : Int, r.queryTotal = some t → 0 < t →
      ((getEmailsClient primary accountId limit position (Except.ok r)).hasMore = true ↔
        (position : Int) + r.list.length < t)) ∧
    ((r.queryTotal = none ∨ ∃ t : Int, r.queryTotal = some t ∧ t ≤ 0) →
      ((getEmailsClient primary accountId limit position (Except.ok r)).hasMore = true ↔
        r.list.length = limit)) ∧
    (getEmailsClient primary accountId limit position (Except.ok r)).emails.length =
      r.list.length ∧
    getEmailsClient "acct" none 2 0
        (Except.ok { queryTotal := some ((inboxFive.length : Int)), list := (inboxFive.drop 0).take 2 }) =
      { emails := (inboxFive.drop 0).take 2, hasMore := true, total := 5 } ∧
    ((inboxFive.drop 0).take 2).length = 2 ∧
    getEmailsClient "acct" none 2 4
        (Except.ok { queryTotal := some ((inboxFive.length : Int)), list := (inboxFive.drop 4).take 2 }) =
      { emails := (inboxFive.drop 4).take 2, hasMore := false, total := 5 } ∧
    ((inboxFive.drop 4).take 2).length = 1 := by
  refine ⟨?_, ?_, ?_, by decide, by decide, by decide, by decide⟩
  · intro t ht hpos
    have ht0 : (t == 0) = false := by simp; omega
    simp only [getEmailsClient, ht, ht0, Bool.false_eq_true, if_false, if_pos hpos,
      decide_eq_true_eq]
  · intro hcase
    have : (match r.queryTotal with
        | some t => if t == 0 then (0 : Int) else t
        | none => 0) ≤ 0 := by
      rcases hcase with h | ⟨t, ht, hle⟩
      · simp [h]
      · simp only [ht]
        split <;> omega
    simp only [getEmailsClient]
    rw [if_neg (by omega)]
    simp
  · simp only [getEmailsClient]
    cases accountId with
    | none => rfl
    | some a => by_cases h : a != primary <;> simp [h]

/-- C3 witness: the general clauses instantiated at a concrete positive
total and at a concrete absent total. -/
theorem getEmails_hasMore_witness :
    ((getEmailsClient "acct" none 2 1 (Except.ok pageRespTotal)).hasMore = true ↔
      ((1 : Nat) : Int) + pageRespTotal.list.length < 4) ∧
    ((getEmailsClient "acct" none 1 0 (Except.ok pageRespNoTotal)).hasMore = true ↔
      pageRespNoTotal.list.length = 1) :=
  ⟨(getEmails_hasMore "acct" none 2 1 pageRespTotal).1 4 (by decide) (by decide),
   (getEmails_hasMore "acct" none 1 0 pageRespNoTotal).2.1 (Or.inl (by decide))⟩

/-- C4: shared-account mailboxes are stored under `accountId:originalId`
ids (parent ids namespaced the same way, `originalId` holding the raw
server id), shared-account emails get every mailbox-membership key
rewritten with the `accountId:` namespace in `getEmails`, `getEmail` and
`getThreadEmails`, and primary-account mailboxes and emails keep their
server ids unprefixed. -/
theorem sharedAccount_namespacing
    (accountId primary username : String) (accName : Option String)
    (mb : JMAPRawMailbox) (a : String) (limit position : Nat)
    (r : EmailQueryGetOk) (respList : List Email) (e : Email) :
    (accountId ≠ primary →
      (mapAllAccountMailbox accountId primary username accName mb).id =
        accountId ++ ":" ++ mb.id ∧
      (mapAllAccountMailbox accountId primary username accName mb).originalId =
        some mb.id ∧
      (mapAllAccountMailbox accountId primary username accName mb).isShared = true ∧
      ∀ pid, mb.parentId = some pid → pid ≠ "" →
        (mapAllAccountMailbox accountId primary username accName mb).parentId =
          some (accountId ++ ":" ++ pid)) ∧
    ((mapAllAccountMailbox primary primary username accName mb).id = mb.id ∧
     (mapAllAccountMailbox primary primary username accName mb).isShared = false) ∧
    (∀ e0 : Email, (namespaceEmailMailboxIds a e0).mailboxIds =
      e0.mailboxIds.map (fun k => a ++ ":" ++ k)) ∧
    (a ≠ primary →
      (getEmailsClient primary (some a) limit position (Except.ok r)).emails =
        r.list.map (namespaceEmailMailboxIds a) ∧
      getEmailClient primary (some a) (Except.ok (e :: respList)) =
        some (namespaceEmailMailboxIds a e) ∧
      ∀ e1 ∈ getThreadEmailsClient primary (some a) (Except.ok respList),
        ∃ e0 ∈ respList, e1 = namespaceEmailMailboxIds a e0) ∧
    ((getEmailsClient primary none limit position (Except.ok r)).emails = r.list ∧
     (getEmailsClient primary (some primary) limit position (Except.ok r)).emails = r.list ∧
     getEmailClient primary none (Except.ok (e :: respList)) = some e) := by
  refine ⟨?_, ?_, fun e0 => rfl, ?_, ?_, ?_, ?_⟩
  · intro h
    have hbeq : (accountId == primary) = false := by simpa using h
    refine ⟨by simp [mapAllAccountMailbox, hbeq], by simp [mapAllAccountMailbox, hbeq],
      by simp [mapAllAccountMailbox, hbeq], ?_⟩
    intro pid hpid hne
    simp [mapAllAccountMailbox, hbeq, hpid, hne]
  · constructor <;> simp [mapAllAccountMailbox]
  · intro h
    have hbne : (a != primary) = true := by simpa using h
    refine ⟨by simp [getEmailsClient, hbne], by simp [getEmailClient, hbne], ?_⟩
    intro e1 he1
    simp only [getThreadEmailsClient, hbne, if_true] at he1
    have := List.mem_mergeSort.mp he1
    obtain ⟨e0, he0, heq⟩ := mem_map_elim this
    exact ⟨e0, he0, heq.symm⟩
  · simp [getEmailsClient]
  · simp [getEmailsClient]
  · simp [getEmailClient]

/-- C4 witness: a mailbox `id=INBOX` fetched under shared account `acct-2`
is stored as `acct-2:INBOX` with `originalId=INBOX`, and an email fetched
under that account has its membership key rewritten to `acct-2:INBOX`. -/
theorem sharedAccount_namespacing_witness :
    (mapAllAccountMailbox "acct-2" "acct" "me" (some "Shared") rawINBOX).id =
      "acct-2" ++ ":" ++ "INBOX" ∧
    (mapAllAccountMailbox "acct-2" "acct" "me" (some "Shared") rawINBOX).originalId =
      some "INBOX" ∧
    (getEmailsClient "acct" (some "acct-2") 1 0 (Except.ok pageRespShared)).emails =
      pageRespShared.list.map (namespaceEmailMailboxIds "acct-2") := by
  have h := sharedAccount_namespacing "acct-2" "acct" "me" (some "Shared")
    rawINBOX "acct-2" 1 0 pageRespShared [] sharedEmail
  have h1 := h.1 (by decide)
  have h4 := h.2.2.2.1 (by decide)
  exact ⟨h1.1, h1.2.1, h4.1⟩

/-- C6 counterexample: `markAsRead` receives an `Email/set` response whose
notUpdated map carries a described error, yet it resolves successfully and
throws nothing — the claim that every mutation call inspects the error map
and throws is false. -/
theorem mutation_error_inspection_cex :
    markAsReadHandle sampleErrorResponse = Except.ok () ∧
    ∀ msg : String, markAsReadHandle sampleErrorResponse ≠ Except.error msg :=
  ⟨rfl, fun _ h => Except.noConfusion h⟩

/-- C6 (amended): only `createDraft` and `sendEmail` inspect the response
for a notCreated/notUpdated error map and throw an error carrying the first
entry's description or type; the other mutation calls resolve successfully
whatever the parsed response carries. -/
theorem mutation_error_inspection
    (eid id d t : String) (err : SetError) (tail : List (String × SetError))
    (mr : MethodResult) (p0 : String × MethodResult) :
    (∀ resp : List (String × MethodResult),
      markAsReadHandle resp = Except.ok () ∧
      batchMarkAsReadHandle resp = Except.ok () ∧
      toggleStarHandle resp = Except.ok () ∧
      updateEmailKeywordsHandle resp = Except.ok () ∧
      deleteEmailHandle resp = Except.ok () ∧
      moveToTrashHandle resp = Except.ok () ∧
      batchDeleteEmailsHandle resp = Except.ok () ∧
      batchMoveEmailsHandle resp = Except.ok () ∧
      moveEmailHandle resp = Except.ok ()) ∧
    (err.description = some d → d ≠ "" →
      (mr.notCreated = some ((id, err) :: tail) →
        createDraftHandle false eid [("Email/set", mr)] = Except.error d ∧
        createDraftHandle true eid [p0, ("Email/set", mr)] = Except.error d ∧
        sendEmailHandle [("Email/set", mr)] = Except.error d) ∧
      (mr.notCreated = none → mr.notUpdated = some ((id, err) :: tail) →
        createDraftHandle false eid [("Email/set", mr)] = Except.error d ∧
        sendEmailHandle [("Email/set", mr)] = Except.error d)) ∧
    (err.description = none → err.type = some t → t ≠ "" →
      mr.notCreated = some ((id, err) :: tail) →
      createDraftHandle false eid [("Email/set", mr)] = Except.error t ∧
      sendEmailHandle [("Email/set", mr)] = Except.error t) := by
  have hsuffix : ("/error".data.isSuffixOf "Email/set".data) = false := by decide
  refine ⟨fun resp => ⟨rfl, rfl, rfl, rfl, rfl, rfl, rfl, rfl, rfl⟩, ?_, ?_⟩
  · intro hdesc hd
    have hdbeq : (d == "") = false := by simpa using hd
    constructor
    · intro hnc
      refine ⟨?_, ?_, ?_⟩
      · simp [createDraftHandle, hnc, firstSetErrorMessage, hdesc, hdbeq]
      · simp [createDraftHandle, hnc, firstSetErrorMessage, hdesc, hdbeq]
      · simp [sendEmailHandle, sendEmailCheckOne, hsuffix, hnc, firstSetErrorMessage,
          hdesc, hdbeq]
    · intro hnc hnu
      constructor
      · simp [createDraftHandle, hnc, hnu, firstSetErrorMessage, hdesc, hdbeq]
      · simp [sendEmailHandle, sendEmailCheckOne, hsuffix, hnc, hnu, firstSetErrorMessage,
          hdesc, hdbeq]
  · intro hdesc htype ht hnc
    have htbeq : (t == "") = false := by simpa using ht
    constructor
    · simp [createDraftHandle, hnc, firstSetErrorMessage, hdesc, htype, htbeq]
    · simp [sendEmailHandle, sendEmailCheckOne, hsuffix, hnc, firstSetErrorMessage,
        hdesc, htype, htbeq]

/-- C6 witness: the amended clauses at the concrete error map of the
counterexample response. -/
theorem mutation_error_inspection_witness :
    createDraftHandle false "d1"
      [("Email/set",
        { notCreated := some [("e1", { description := some "boom", type := some "invalidProperties" })] })] =
      Except.error "boom" ∧
    sendEmailHandle
      [("Email/set",
        { notCreated := some [("e1", { description := some "boom", type := some "invalidProperties" })] })] =
      Except.error "boom" := by
  have h := mutation_error_inspection "d1" "e1" "boom" "invalidProperties"
    { description := some "boom", type := some "invalidProperties" } []
    { notCreated := some [("e1", { description := some "boom", type := some "invalidProperties" })] }
    ("Email/set", {})
  have h2 := (h.2.1 (by decide) (by decide)).1 (by decide)
  exact ⟨h2.1, h2.2.2⟩

/-- C2: the store's `markAsRead` returns immediately with no network call
and unchanged state when the email's seen flag already equals the target,
and when a second invocation with the same `(id, target)` starts while the
first is suspended at its network call, the second issues no call and the
overlapped execution issues exactly one call with the same final state as a
single uninterrupted run. -/
theorem markAsRead_dedup (s : EmailStore) (emailId : String) (read : Bool) :
    (∀ e : Email, s.emails.find? (fun x => x.id == emailId) = some e →
      e.seen = read → markAsReadRun s emailId read = (s, [])) ∧
    (∀ (s1 : EmailStore) (c : ClientCall),
      markAsReadStart s emailId read = some (s1, c) →
      markAsReadStart s1 emailId read = none ∧
      markAsReadRun s emailId read = (markAsReadFinish s1 emailId read, [c])) := by
  constructor
  · intro e hfind hseen
    unfold markAsReadRun markAsReadStart
    rw [hfind]
    by_cases hc : s.processingReadStatus.contains (processingKey emailId read) <;>
      simp [hc, hseen]
  · intro s1 c hstart
    have horig := hstart
    simp only [markAsReadStart] at hstart
    split at hstart
    · exact Option.noConfusion hstart
    · split at hstart
      · exact Option.noConfusion hstart
      · split at hstart
        · exact Option.noConfusion hstart
        · injection hstart with hpair
          have hs1 : s1 = { s with processingReadStatus :=
              s.processingReadStatus ++ [processingKey emailId read] } :=
            (congrArg Prod.fst hpair).symm
          constructor
          · rw [hs1]
            unfold markAsReadStart
            simp
          · unfold markAsReadRun
            rw [horig]


/-- C2 witness: on the scenario store (email `a` unread) a run targeting
`read = false` is a no-op, and an overlapped pair of runs targeting
`read = true` issues exactly one call. -/
theorem markAsRead_dedup_witness :
    markAsReadRun sampleStore "a" false = (sampleStore, []) ∧
    markAsReadStart
      { sampleStore with processingReadStatus := ["a-true"] } "a" true = none :=
  ⟨(markAsRead_dedup sampleStore "a" false).1 (sampleEmail "a" "t1" 5 false)
      (by decide) (by decide),
   ((markAsRead_dedup sampleStore "a" true).2
      { sampleStore with processingReadStatus := ["a-true"] }
      (ClientCall.markAsRead "a" true none) (by decide)).1⟩

/-- Helper: `refreshCurrentMailbox` never touches the error field, whatever
the transport outcome. -/
theorem refreshCurrentMailbox_error_eq (s : EmailStore) (epp : Nat)
    (pid : String) (resp : Except String EmailQueryGetOk) :
    ((refreshCurrentMailboxRun s epp pid resp).1).error = s.error := by
  unfold refreshCurrentMailboxRun
  split
  · rfl
  · dsimp only
    split
    · split <;> rfl
    · rfl

/-- Helper: `fetchMailboxes` clears the error field on its (always taken)
success path. -/
theorem fetchMailboxesApply_error_none (s : EmailStore) (mbs : List Mailbox) :
    (fetchMailboxesApply s mbs).error = none := by
  unfold fetchMailboxesApply
  split <;> (dsimp only; split <;> rfl)

/-- C5: a poll-driven background refresh never sets the user-visible error
state: for every change descriptor, with the underlying email-page fetch
and every per-account mailbox fetch failing, `handleStateChange` leaves the
store's error field unset. -/
theorem background_refresh_no_error
    (s : EmailStore) (change : StateChange) (now : Int) (cid username : String)
    (epp : Nat) (emsg : String) (merr : String → String)
    (accounts : List (String × Option String))
    (herr : s.error = none) :
    ((handleStateChangeRun s change now cid epp (Except.error emsg) accounts username
        (fun aid => Except.error (merr aid))).1).error = none := by
  unfold handleStateChangeRun
  split
  · exact herr
  · dsimp only
    by_cases hmb : (by rename_i entry _; exact entry.2.mailboxChanged) = true
    all_goals rename_i entry _
    · simp only [hmb, if_true, fetchMailboxesRun, fetchMailboxesApply_error_none]
    · simp only [Bool.not_eq_true] at hmb
      simp only [hmb, Bool.false_eq_true, if_false]
      by_cases hem : entry.2.emailChanged = true
      · simp only [hem, if_true]
        rw [refreshCurrentMailbox_error_eq]
        exact herr
      · simp only [Bool.not_eq_true] at hem
        simp only [hem, Bool.false_eq_true, if_false]
        exact herr

/-- C5 witness: the scenario store with a change descriptor carrying both a
changed Email and a changed Mailbox token, all fetches failing. -/
theorem background_refresh_no_error_witness :
    ((handleStateChangeRun sampleStore
        { changed := [("acct", { emailChanged := true, mailboxChanged := true })] }
        1000 "acct" 50 (Except.error "network down")
        [("acct", some "me")] "me"
        (fun aid => Except.error (String.append "fail " aid))).1).error = none :=
  background_refresh_no_error sampleStore
    { changed := [("acct", { emailChanged := true, mailboxChanged := true })] }
    1000 "acct" "me" 50 "network down" (fun aid => String.append "fail " aid)
    [("acct", some "me")] rfl

/-- Helper: keys of the thread map after one insertion. -/
theorem addToThreadMap_keys (m : List (String × List Email)) (tid : String) (e : Email) :
    (addToThreadMap m tid e).map (fun p => p.1) =
      if m.any (fun p => p.1 == tid) then m.map (fun p => p.1)
      else m.map (fun p => p.1) ++ [tid] := by
  unfold addToThreadMap
  by_cases h : m.any (fun p => p.1 == tid) = true
  · rw [if_pos h, if_pos h, List.map_map]
    apply List.map_congr_left
    intro p _
    by_cases hp : (p.1 == tid) = true <;> simp [Function.comp, hp]
  · rw [if_neg h, if_neg h]
    simp

/-- Helper: inserting under an absent key leaves every existing bucket
unchanged. -/
theorem addToThreadMap_map_of_not_mem (m : List (String × List Email)) (tid : String)
    (e : Email) (h : m.any (fun p => p.1 == tid) = false) :
    m.map (fun p => if p.1 == tid then (p.1, p.2 ++ [e]) else p) = m := by
  have hall : ∀ p ∈ m, (if p.1 == tid then (p.1, p.2 ++ [e]) else p) = p := by
    intro p hp
    rw [if_neg ?_]
    have := List.any_eq_false.mp h p hp
    simpa using this
  exact (List.map_congr_left hall).trans (List.map_id m)

/-- Helper: one insertion preserves distinctness of the thread-map keys. -/
theorem addToThreadMap_keys_nodup (m : List (String × List Email)) (tid : String)
    (e : Email) (h : (m.map (fun p => p.1)).Nodup) :
    ((addToThreadMap m tid e).map (fun p => p.1)).Nodup := by
  rw [addToThreadMap_keys]
  split
  · exact h
  · rename_i hany
    rw [List.nodup_append]
    refine ⟨h, List.nodup_singleton tid, ?_⟩
    intro a ha hb
    simp only [List.mem_singleton] at hb
    subst hb
    obtain ⟨p, hp, hpa⟩ := List.mem_map.mp ha
    exact hany (List.any_eq_true.mpr ⟨p, hp, by simp [hpa]⟩)

/-- Helper: appending an email to the bucket of a present key permutes the
flattened buckets to the old flattening plus that email, provided the keys
are distinct. -/
theorem flatten_bucket_update_perm :
    ∀ (m : List (String × List Email)) (tid : String) (e : Email),
      (m.map (fun p => p.1)).Nodup → m.any (fun p => p.1 == tid) = true →
      List.Perm
        (((m.map (fun p => if p.1 == tid then (p.1, p.2 ++ [e]) else p)).map (fun p => p.2)).flatten)
        ((m.map (fun p => p.2)).flatten ++ [e]) := by
  intro m tid e hnd hany
  induction m with
  | nil => simp at hany
  | cons p rest ih =>
    simp only [List.map_cons, List.flatten_cons] at *
    have hndrest : (rest.map (fun q => q.1)).Nodup := (List.nodup_cons.mp hnd).2
    by_cases hp : (p.1 == tid) = true
    · rw [if_pos hp]
      have hkey : p.1 = tid := by simpa using hp
      have hnotin : p.1 ∉ rest.map (fun q => q.1) := (List.nodup_cons.mp hnd).1
      have hrest : rest.any (fun q => q.1 == tid) = false := by
        apply List.any_eq_false.mpr
        intro q hq hqtid
        apply hnotin
        rw [hkey]
        have : q.1 = tid := by simpa using hqtid
        exact this ▸ List.mem_map.mpr ⟨q, hq, rfl⟩
      rw [addToThreadMap_map_of_not_mem rest tid e hrest]
      simp only [List.map_cons, List.flatten_cons]
      rw [List.append_assoc, List.append_assoc]
      exact List.Perm.append_left p.2 List.perm_append_comm
    · rw [if_neg hp]
      have hany' : rest.any (fun q => q.1 == tid) = true := by
        rcases List.any_eq_true.mp hany with ⟨q, hq, hqt⟩
        rcases List.mem_cons.mp hq with hq1 | hq2
        · exact absurd (hq1 ▸ hqt) (by simpa using hp)
        · exact List.any_eq_true.mpr ⟨q, hq2, hqt⟩
      have := ih hndrest hany'
      rw [List.append_assoc]
      exact List.Perm.append_left p.2 ((this).trans (List.Perm.refl _))

/-- Helper: one insertion permutes the flattened buckets to the old
flattening plus the inserted email. -/
theorem addToThreadMap_flatten_perm (m : List (String × List Email)) (tid : String)
    (e : Email) (hnd : (m.map (fun p => p.1)).Nodup) :
    List.Perm ((addToThreadMap m tid e).map (fun p => p.2)).flatten
      ((m.map (fun p => p.2)).flatten ++ [e]) := by
  unfold addToThreadMap
  by_cases h : m.any (fun p => p.1 == tid) = true
  · rw [if_pos h]
    exact flatten_bucket_update_perm m tid e hnd h
  · rw [if_neg h]
    simp only [List.map_append, List.flatten_append, List.map_cons, List.map_nil,
      List.flatten_cons, List.flatten_nil, List.append_nil]
    exact List.Perm.refl _

/-- Helper: the grouping fold keeps the thread-map keys distinct. -/
theorem buildFold_keys_nodup :
    ∀ (l : List Email) (m : List (String × List Email)),
      (m.map (fun p => p.1)).Nodup →
      ((l.foldl (fun acc e => addToThreadMap acc e.threadId e) m).map (fun p => p.1)).Nodup := by
  intro l
  induction l with
  | nil => intro m h; exact h
  | cons e rest ih =>
    intro m h
    exact ih (addToThreadMap m e.threadId e) (addToThreadMap_keys_nodup m e.threadId e h)

/-- Helper: the grouping fold's flattened buckets are a permutation of the
accumulated buckets plus the processed emails. -/
theorem buildFold_flatten_perm :
    ∀ (l : List Email) (m : List (String × List Email)),
      (m.map (fun p => p.1)).Nodup →
      List.Perm
        (((l.foldl (fun acc e => addToThreadMap acc e.threadId e) m).map (fun p => p.2)).flatten)
        ((m.map (fun p => p.2)).flatten ++ l) := by
  intro l
  induction l with
  | nil => intro m h; simp
  | cons e rest ih =>
    intro m h
    have h1 := ih (addToThreadMap m e.threadId e) (addToThreadMap_keys_nodup m e.threadId e h)
    have h2 := addToThreadMap_flatten_perm m e.threadId e h
    refine h1.trans ?_
    refine (h2.append_right rest).trans ?_
    rw [List.append_assoc]
    exact List.Perm.refl _

/-- Helper: every email stored in a bucket of the grouping fold carries the
bucket's key as its thread id. -/
theorem buildFold_tid :
    ∀ (l : List Email) (m : List (String × List Email)),
      (∀ p ∈ m, ∀ x ∈ p.2, x.threadId = p.1) →
      ∀ p ∈ l.foldl (fun acc e => addToThreadMap acc e.threadId e) m,
        ∀ x ∈ p.2, x.threadId = p.1 := by
  intro l
  induction l with
  | nil => intro m h; exact h
  | cons e rest ih =>
    intro m h
    apply ih
    intro p hp x hx
    simp only [addToThreadMap] at hp
    by_cases hany : m.any (fun q => q.1 == e.threadId) = true
    · rw [if_pos hany] at hp
      obtain ⟨q, hq, hqp⟩ := List.mem_map.mp hp
      by_cases hqt : (q.1 == e.threadId) = true
      · rw [if_pos hqt] at hqp
        subst hqp
        simp only at hx ⊢
        rcases List.mem_append.mp hx with hx1 | hx2
        · exact h q hq x hx1
        · simp only [List.mem_singleton] at hx2
          subst hx2
          exact (eq_of_beq hqt).symm
      · rw [if_neg hqt] at hqp
        subst hqp
        exact h q hq x hx
    · rw [if_neg hany] at hp
      rcases List.mem_append.mp hp with hp1 | hp2
      · exact h p hp1 x hx
      · simp only [List.mem_singleton] at hp2
        subst hp2
        simp only [List.mem_singleton] at hx
        subst hx
        rfl

/-- Helper: sorting each bucket preserves the flattened multiset. -/
theorem flatten_mergeSort_perm :
    ∀ bs : List (String × List Email),
      List.Perm ((bs.map (fun p => (mkThreadGroup p.1 p.2).emails)).flatten)
        ((bs.map (fun p => p.2)).flatten) := by
  intro bs
  induction bs with
  | nil => simp
  | cons p rest ih =>
    simp only [List.map_cons, List.flatten_cons]
    exact List.Perm.append (List.mergeSort_perm p.2 emailDescBefore) ih

/-- C7: `groupEmailsByThread` is a total partition of its input: the group
member lists flatten to a permutation of the input, every member of a
group carries the group's thread id, group thread ids are pairwise
distinct, and the `emailCount` aggregates sum to the input length. -/
theorem groupEmailsByThread_partition (emails : List Email) :
    ((groupEmailsByThread emails).map (fun g => g.emailCount)).sum = emails.length ∧
    List.Perm ((groupEmailsByThread emails).map (fun g => g.emails)).flatten emails ∧
    (∀ g ∈ groupEmailsByThread emails, ∀ e ∈ g.emails, e.threadId = g.threadId) ∧
    ((groupEmailsByThread emails).map (fun g => g.threadId)).Nodup := by
  by_cases hempty : emails.isEmpty = true
  · have : emails = [] := List.isEmpty_iff.mp hempty
    subst this
    simp [groupEmailsByThread]
  · have hgrp : groupEmailsByThread emails =
        (buildThreadMap emails).map (fun p => mkThreadGroup p.1 p.2) := by
      unfold groupEmailsByThread
      rw [if_neg hempty]
    have hperm0 := buildFold_flatten_perm emails [] (by simp)
    simp only [List.map_nil, List.flatten_nil, List.nil_append] at hperm0
    have hnd0 := buildFold_keys_nodup emails [] (by simp)
    refine ⟨?_, ?_, ?_, ?_⟩
    · rw [hgrp, List.map_map]
      have hcnt : ((buildThreadMap emails).map
            ((fun g => g.emailCount) ∘ (fun p => mkThreadGroup p.1 p.2))) =
          (buildThreadMap emails).map (fun p => p.2.length) := by
        apply List.map_congr_left
        intro p _
        simp [Function.comp, mkThreadGroup, List.length_mergeSort]
      rw [hcnt]
      have hlen : ((buildThreadMap emails).map (fun p => p.2.length)) =
          ((buildThreadMap emails).map (fun p => p.2)).map List.length := by
        rw [List.map_map]
        rfl
      rw [hlen, ← List.length_flatten]
      exact hperm0.length_eq
    · rw [hgrp, List.map_map]
      have : ((buildThreadMap emails).map
            ((fun g => g.emails) ∘ (fun p => mkThreadGroup p.1 p.2))) =
          ((buildThreadMap emails).map (fun p => (mkThreadGroup p.1 p.2).emails)) := rfl
      rw [this]
      exact (flatten_mergeSort_perm (buildThreadMap emails)).trans hperm0
    · rw [hgrp]
      intro g hg e he
      obtain ⟨p, hp, hpg⟩ := List.mem_map.mp hg
      subst hpg
      have htid := buildFold_tid emails [] (by simp) p hp
      have hmem : e ∈ p.2 := by
        have : e ∈ p.2.mergeSort emailDescBefore := he
        exact (List.mem_mergeSort).mp this
      exact htid e hmem
    · rw [hgrp, List.map_map]
      have : ((buildThreadMap emails).map
            ((fun g => g.threadId) ∘ (fun p => mkThreadGroup p.1 p.2))) =
          (buildThreadMap emails).map (fun p => p.1) := rfl
      rw [this]
      exact hnd0

/-- C7 witness: the partition facts at a concrete three-email, two-thread
input. -/
theorem groupEmailsByThread_partition_witness :
    ((groupEmailsByThread
        [sampleEmail "a" "t1" 5 false, sampleEmail "b" "t2" 9 true,
         sampleEmail "c" "t1" 7 true]).map (fun g => g.emailCount)).sum =
      [sampleEmail "a" "t1" 5 false, sampleEmail "b" "t2" 9 true,
       sampleEmail "c" "t1" 7 true].length ∧
    ((groupEmailsByThread
        [sampleEmail "a" "t1" 5 false, sampleEmail "b" "t2" 9 true,
         sampleEmail "c" "t1" 7 true]).map (fun g => g.threadId)).Nodup :=
  ⟨(groupEmailsByThread_partition
      [sampleEmail "a" "t1" 5 false, sampleEmail "b" "t2" 9 true,
       sampleEmail "c" "t1" 7 true]).1,
   (groupEmailsByThread_partition
      [sampleEmail "a" "t1" 5 false, sampleEmail "b" "t2" 9 true,
       sampleEmail "c" "t1" 7 true]).2.2.2⟩

/-- Helper: the newest-first comparator is transitive. -/
theorem emailDescBefore_trans (a b c : Email) :
    emailDescBefore a b → emailDescBefore b c → emailDescBefore a c := by
  simp only [emailDescBefore, decide_eq_true_eq]
  omega

/-- Helper: the newest-first comparator is total. -/
theorem emailDescBefore_total (a b : Email) :
    emailDescBefore a b || emailDescBefore b a := by
  simp only [emailDescBefore, Bool.or_eq_true, decide_eq_true_eq]
  omega

/-- Helper: rebuilding a group from an already sorted member list equals
rebuilding it from the unsorted one. -/
theorem mkThreadGroup_mergeSort (t : String) (vs : List Email) :
    mkThreadGroup t (vs.mergeSort emailDescBefore) = mkThreadGroup t vs := by
  unfold mkThreadGroup
  rw [List.mergeSort_of_sorted
    (List.sorted_mergeSort emailDescBefore_trans emailDescBefore_total vs)]

/-- Helper: keys of the merge map after one `Map.set`. -/
theorem mapSetEmail_keys (m : List (String × Email)) (k : String) (v : Email) :
    (mapSetEmail m k v).map (fun p => p.1) =
      if m.any (fun p => p.1 == k) then m.map (fun p => p.1)
      else m.map (fun p => p.1) ++ [k] := by
  unfold mapSetEmail
  by_cases h : m.any (fun p => p.1 == k) = true
  · rw [if_pos h, if_pos h, List.map_map]
    apply List.map_congr_left
    intro p _
    by_cases hp : (p.1 == k) = true <;> simp [Function.comp, hp]
  · rw [if_neg h, if_neg h]
    simp

/-- Helper: `Map.set` with a value keyed by its own id preserves the
key-equals-value-id invariant. -/
theorem mapSetEmail_pairInv (m : List (String × Email)) (k : String) (v : Email)
    (hv : v.id = k) (h : ∀ p ∈ m, p.2.id = p.1) :
    ∀ p ∈ mapSetEmail m k v, p.2.id = p.1 := by
  unfold mapSetEmail
  by_cases hc : m.any (fun p => p.1 == k) = true
  · rw [if_pos hc]
    intro p hp
    obtain ⟨q, hq, hqp⟩ := List.mem_map.mp hp
    by_cases hqk : (q.1 == k) = true
    · rw [if_pos hqk] at hqp
      subst hqp
      simpa [hv] using (eq_of_beq hqk).symm
    · rw [if_neg hqk] at hqp
      subst hqp
      exact h q hq
  · rw [if_neg hc]
    intro p hp
    rcases List.mem_append.mp hp with hp1 | hp2
    · exact h p hp1
    · simp only [List.mem_singleton] at hp2
      subst hp2
      exact hv

/-- Helper: `Map.set` preserves distinctness of the merge-map keys. -/
theorem mapSetEmail_keys_nodup (m : List (String × Email)) (k : String) (v : Email)
    (h : (m.map (fun p => p.1)).Nodup) :
    ((mapSetEmail m k v).map (fun p => p.1)).Nodup := by
  rw [mapSetEmail_keys]
  split
  · exact h
  · rename_i hany
    rw [List.nodup_append]
    refine ⟨h, List.nodup_singleton k, ?_⟩
    intro a ha hb
    simp only [List.mem_singleton] at hb
    subst hb
    obtain ⟨p, hp, hpa⟩ := List.mem_map.mp ha
    exact hany (List.any_eq_true.mpr ⟨p, hp, by simp [hpa]⟩)

/-- Helper: the first merge loop preserves the key-equals-value-id
invariant. -/
theorem buildEmailMap_pairInv :
    ∀ (l : List Email) (m0 : List (String × Email)),
      (∀ p ∈ m0, p.2.id = p.1) → ∀ p ∈ buildEmailMap l m0, p.2.id = p.1 := by
  intro l
  induction l with
  | nil => intro m0 h; exact h
  | cons e rest ih =>
    intro m0 h
    exact ih (mapSetEmail m0 e.id e) (mapSetEmail_pairInv m0 e.id e rfl h)

/-- Helper: the first merge loop preserves key distinctness. -/
theorem buildEmailMap_keys_nodup :
    ∀ (l : List Email) (m0 : List (String × Email)),
      (m0.map (fun p => p.1)).Nodup →
      ((buildEmailMap l m0).map (fun p => p.1)).Nodup := by
  intro l
  induction l with
  | nil => intro m0 h; exact h
  | cons e rest ih =>
    intro m0 h
    exact ih (mapSetEmail m0 e.id e) (mapSetEmail_keys_nodup m0 e.id e h)

/-- Helper: the second merge loop preserves the key-equals-value-id
invariant. -/
theorem addFetchedEmails_pairInv :
    ∀ (l : List Email) (m0 : List (String × Email)),
      (∀ p ∈ m0, p.2.id = p.1) → ∀ p ∈ addFetchedEmails l m0, p.2.id = p.1 := by
  intro l
  induction l with
  | nil => intro m0 h; exact h
  | cons e rest ih =>
    intro m0 h
    apply ih
    intro p hp
    dsimp only at hp
    by_cases hc : m0.any (fun q => q.1 == e.id) = true
    · rw [show (if m0.any (fun q => q.1 == e.id) = true then m0 else m0 ++ [(e.id, e)]) = m0
          from if_pos hc] at hp
      exact h p hp
    · rw [show (if m0.any (fun q => q.1 == e.id) = true then m0 else m0 ++ [(e.id, e)]) =
            m0 ++ [(e.id, e)] from if_neg hc] at hp
      rcases List.mem_append.mp hp with hp1 | hp2
      · exact h p hp1
      · simp only [List.mem_singleton] at hp2
        subst hp2
        rfl

/-- Helper: the second merge loop preserves key distinctness. -/
theorem addFetchedEmails_keys_nodup :
    ∀ (l : List Email) (m0 : List (String × Email)),
      (m0.map (fun p => p.1)).Nodup →
      ((addFetchedEmails l m0).map (fun p => p.1)).Nodup := by
  intro l
  induction l with
  | nil => intro m0 h; exact h
  | cons e rest ih =>
    intro m0 h
    apply ih
    dsimp only
    by_cases hc : m0.any (fun q => q.1 == e.id) = true
    · rw [if_pos hc]
      exact h
    · rw [if_neg hc]
      rw [List.map_append, List.nodup_append]
      refine ⟨h, by simp, ?_⟩
      intro a ha hb
      simp only [List.map_cons, List.map_nil, List.mem_singleton] at hb
      subst hb
      obtain ⟨p, hp, hpa⟩ := List.mem_map.mp ha
      exact hc (List.any_eq_true.mpr ⟨p, hp, by simp [hpa]⟩)

/-- Helper: the second merge loop never invalidates an existing `any`
witness (the map only grows). -/
theorem addFetchedEmails_any_mono :
    ∀ (l : List Email) (m0 : List (String × Email)) (pr : String × Email → Bool),
      m0.any pr = true → (addFetchedEmails l m0).any pr = true := by
  intro l
  induction l with
  | nil => intro m0 pr h; exact h
  | cons e rest ih =>
    intro m0 pr h
    apply ih
    dsimp only
    by_cases hc : m0.any (fun q => q.1 == e.id) = true
    · rw [if_pos hc]; exact h
    · rw [if_neg hc, List.any_append, h]
      rfl

/-- Helper: after the second merge loop every fetched id is a key. -/
theorem addFetchedEmails_present :
    ∀ (l : List Email) (m0 : List (String × Email)),
      ∀ e ∈ l, (addFetchedEmails l m0).any (fun p => p.1 == e.id) = true := by
  intro l
  induction l with
  | nil => intro m0 e he; exact absurd he (List.not_mem_nil e)
  | cons x rest ih =>
    intro m0 e he
    rcases List.mem_cons.mp he with he1 | he2
    · subst he1
      apply addFetchedEmails_any_mono rest
      dsimp only
      by_cases hc : m0.any (fun q => q.1 == e.id) = true
      · rw [if_pos hc]; exact hc
      · rw [if_neg hc, List.any_append]
        simp
    · exact ih _ e he2

/-- Helper: filling the merge map from a list with pairwise-distinct ids
and ids fresh for the accumulator just appends the keyed pairs. -/
theorem buildEmailMap_of_nodup :
    ∀ (l : List Email) (m0 : List (String × Email)),
      (l.map (fun e => e.id)).Nodup →
      (∀ e ∈ l, m0.any (fun p => p.1 == e.id) = false) →
      buildEmailMap l m0 = m0 ++ l.map (fun e => (e.id, e)) := by
  intro l
  induction l with
  | nil => intro m0 _ _; simp [buildEmailMap]
  | cons e rest ih =>
    intro m0 hnd hfresh
    have hstep : mapSetEmail m0 e.id e = m0 ++ [(e.id, e)] := by
      unfold mapSetEmail
      rw [if_neg (by simp [hfresh e (List.mem_cons_self e rest)])]
    have hnd2 : (e.id :: rest.map (fun x => x.id)).Nodup := by
      rw [List.map_cons] at hnd
      exact hnd
    have hndrest : (rest.map (fun x => x.id)).Nodup := (List.nodup_cons.mp hnd2).2
    have hheadfresh : e.id ∉ rest.map (fun x => x.id) := (List.nodup_cons.mp hnd2).1
    have hfresh' : ∀ x ∈ rest, (m0 ++ [(e.id, e)]).any (fun p => p.1 == x.id) = false := by
      intro x hx
      rw [List.any_append]
      have h1 := hfresh x (List.mem_cons_of_mem e hx)
      have h2 : ([(e.id, e)].any (fun p => p.1 == x.id)) = false := by
        simp only [List.any_cons, List.any_nil, Bool.or_false]
        by_cases hxe : (e.id == x.id) = true
        · exact absurd (List.mem_map.mpr ⟨x, hx, (eq_of_beq hxe).symm⟩) hheadfresh
        · simpa using hxe
      rw [h1, h2]
      rfl
    show buildEmailMap rest (mapSetEmail m0 e.id e) = m0 ++ (e :: rest).map (fun x => (x.id, x))
    rw [hstep, ih (m0 ++ [(e.id, e)]) hndrest hfresh']
    simp

/-- Helper: the second merge loop is the identity when every fetched id is
already a key. -/
theorem addFetchedEmails_of_present :
    ∀ (l : List Email) (m0 : List (String × Email)),
      (∀ e ∈ l, m0.any (fun p => p.1 == e.id) = true) →
      addFetchedEmails l m0 = m0 := by
  intro l
  induction l with
  | nil => intro m0 _; rfl
  | cons e rest ih =>
    intro m0 h
    show addFetchedEmails rest
        (if m0.any (fun q => q.1 == e.id) = true then m0 else m0 ++ [(e.id, e)]) = m0
    rw [if_pos (h e (List.mem_cons_self e rest))]
    exact ih m0 (fun x hx => h x (List.mem_cons_of_mem e hx))

/-- C8: `mergeThreadEmails` is idempotent in its fetched argument: merging
the same fetched set a second time changes neither the member list, its
order, nor the recomputed aggregates. -/
theorem mergeThreadEmails_idempotent (g : ThreadGroup) (f : List Email) :
    mergeThreadEmails (mergeThreadEmails g f) f = mergeThreadEmails g f := by
  have hI : ∀ p ∈ addFetchedEmails f (buildEmailMap g.emails []), p.2.id = p.1 :=
    addFetchedEmails_pairInv f (buildEmailMap g.emails [])
      (buildEmailMap_pairInv g.emails [] (by simp))
  have hnd : ((addFetchedEmails f (buildEmailMap g.emails [])).map (fun p => p.1)).Nodup :=
    addFetchedEmails_keys_nodup f (buildEmailMap g.emails [])
      (buildEmailMap_keys_nodup g.emails [] (by simp))
  have hpresent := addFetchedEmails_present f (buildEmailMap g.emails [])
  -- the merged values and the first merge's member list
  have hre : (mergeThreadEmails g f).emails =
      ((addFetchedEmails f (buildEmailMap g.emails [])).map (fun p => p.2)).mergeSort
        emailDescBefore := rfl
  have hvsids : ((addFetchedEmails f (buildEmailMap g.emails [])).map (fun p => p.2)).map
        (fun e => e.id) =
      (addFetchedEmails f (buildEmailMap g.emails [])).map (fun p => p.1) := by
    rw [List.map_map]
    exact List.map_congr_left (fun p hp => hI p hp)
  have hidperm : List.Perm ((mergeThreadEmails g f).emails.map (fun e => e.id))
      ((addFetchedEmails f (buildEmailMap g.emails [])).map (fun p => p.1)) := by
    rw [hre, ← hvsids]
    exact (List.mergeSort_perm _ emailDescBefore).map (fun e => e.id)
  have hndids : ((mergeThreadEmails g f).emails.map (fun e => e.id)).Nodup :=
    hidperm.nodup_iff.mpr hnd
  have hpresent' : ∀ e ∈ f,
      ((mergeThreadEmails g f).emails.map (fun x => (x.id, x))).any
        (fun p => p.1 == e.id) = true := by
    intro e he
    obtain ⟨p, hp, hpe⟩ := List.any_eq_true.mp (hpresent e he)
    have hkey : p.1 ∈ ((mergeThreadEmails g f).emails.map (fun x => x.id)) := by
      apply hidperm.mem_iff.mpr
      exact List.mem_map.mpr ⟨p, hp, rfl⟩
    obtain ⟨x, hx, hxid⟩ := List.mem_map.mp hkey
    apply List.any_eq_true.mpr
    exact ⟨(x.id, x), List.mem_map.mpr ⟨x, hx, rfl⟩, by rw [hxid]; exact hpe⟩
  -- second merge: the map is exactly the keyed first-merge member list
  have hbuild : buildEmailMap (mergeThreadEmails g f).emails [] =
      (mergeThreadEmails g f).emails.map (fun x => (x.id, x)) := by
    have := buildEmailMap_of_nodup (mergeThreadEmails g f).emails [] hndids
      (fun e _ => rfl)
    simpa using this
  have hadd : addFetchedEmails f ((mergeThreadEmails g f).emails.map (fun x => (x.id, x))) =
      (mergeThreadEmails g f).emails.map (fun x => (x.id, x)) :=
    addFetchedEmails_of_present f _ hpresent'
  have hvals : (((mergeThreadEmails g f).emails.map (fun x => (x.id, x))).map
      (fun p => p.2)) = (mergeThreadEmails g f).emails := by
    rw [List.map_map]
    exact (List.map_congr_left (fun x _ => rfl)).trans (List.map_id _)
  show mkThreadGroup (mergeThreadEmails g f).threadId
      ((addFetchedEmails f (buildEmailMap (mergeThreadEmails g f).emails [])).map
        (fun p => p.2)) = mergeThreadEmails g f
  rw [hbuild, hadd, hvals]
  show mkThreadGroup g.threadId (mergeThreadEmails g f).emails = mergeThreadEmails g f
  rw [hre]
  exact mkThreadGroup_mergeSort g.threadId _

/-- Helper: counters stay non-negative across `markAsRead` (clamped
decrements, increments over non-negative values). -/
theorem countersNonneg_markAsReadRun (s : EmailStore) (emailId : String) (read : Bool)
    (hnn : ∀ mb ∈ s.mailboxes, countersNonneg mb) :
    ∀ mb ∈ (markAsReadRun s emailId read).1.mailboxes, countersNonneg mb := by
  cases hstart : markAsReadStart s emailId read with
  | none =>
    simp only [markAsReadRun, hstart]
    exact hnn
  | some pair =>
    simp only [markAsReadRun, hstart]
    have hs1m : pair.1.mailboxes = s.mailboxes := by
      simp only [markAsReadStart] at hstart
      split at hstart
      · exact Option.noConfusion hstart
      · split at hstart
        · exact Option.noConfusion hstart
        · split at hstart
          · exact Option.noConfusion hstart
          · cases hstart
            rfl
    unfold markAsReadFinish
    split
    · rw [hs1m]; exact hnn
    · split
      · rw [hs1m]; exact hnn
      · intro mb hmb
        rw [hs1m] at hmb
        obtain ⟨mb0, hmb0, hfmb⟩ := List.mem_map.mp hmb
        have h0 := hnn mb0 hmb0
        unfold countersNonneg at h0 ⊢
        subst hfmb
        split
        · refine ⟨h0.1, ?_, h0.2.2.1, ?_⟩ <;> dsimp only <;> (split <;> omega)
        · exact h0

/-- Helper: counters stay non-negative across `deleteEmail`. -/
theorem countersNonneg_deleteEmailRun (s : EmailStore) (emailId : String)
    (action : DeleteAction) (hnn : ∀ mb ∈ s.mailboxes, countersNonneg mb) :
    ∀ mb ∈ (deleteEmailRun s emailId action).1.mailboxes, countersNonneg mb := by
  unfold deleteEmailRun
  split
  · exact hnn
  · dsimp only
    split
    · intro mb hmb
      obtain ⟨mb0, hmb0, hfmb⟩ := List.mem_map.mp hmb
      have h0 := hnn mb0 hmb0
      unfold countersNonneg at h0 ⊢
      subst hfmb
      split
      · refine ⟨?_, ?_, ?_, ?_⟩ <;> dsimp only <;>
          first
          | (split <;> omega)
          | omega
      · split
        · refine ⟨?_, ?_, ?_, ?_⟩ <;> dsimp only <;>
            first
            | (split <;> omega)
            | omega
        · exact h0
    · intro mb hmb
      dsimp only at hmb
      split at hmb
      all_goals
        obtain ⟨mb0, hmb0, hfmb⟩ := List.mem_map.mp hmb
      all_goals
        have h0 := hnn mb0 hmb0
      all_goals
        unfold countersNonneg at h0 ⊢
      all_goals subst hfmb
      all_goals split
      · refine ⟨?_, ?_, ?_, ?_⟩ <;> dsimp only <;> omega
      · exact h0
      · refine ⟨?_, ?_, ?_, ?_⟩ <;> dsimp only <;> omega
      · exact h0


/-- Helper: counters stay non-negative across `moveToMailbox`. -/
theorem countersNonneg_moveToMailboxRun (s : EmailStore) (emailId dest : String)
    (hnn : ∀ mb ∈ s.mailboxes, countersNonneg mb) :
    ∀ mb ∈ (moveToMailboxRun s emailId dest).1.mailboxes, countersNonneg mb := by
  unfold moveToMailboxRun
  split
  · exact hnn
  · intro mb hmb
    dsimp only at hmb
    obtain ⟨mb0, hmb0, hfmb⟩ := List.mem_map.mp hmb
    have h0 := hnn mb0 hmb0
    unfold countersNonneg at h0 ⊢
    subst hfmb
    split
    · refine ⟨?_, ?_, ?_, ?_⟩ <;> dsimp only <;>
        first
        | (split <;> omega)
        | omega
    · split
      · refine ⟨?_, ?_, ?_, ?_⟩ <;> dsimp only <;>
          first
          | (split <;> omega)
          | omega
      · exact h0

/-- Helper: counters stay non-negative across `batchMarkAsRead` (every
adjustment is clamped at zero). -/
theorem countersNonneg_batchMarkAsReadRun (s : EmailStore) (read : Bool)
    (hnn : ∀ mb ∈ s.mailboxes, countersNonneg mb) :
    ∀ mb ∈ (batchMarkAsReadRun s read).1.mailboxes, countersNonneg mb := by
  unfold batchMarkAsReadRun
  split
  · exact hnn
  · intro mb hmb
    dsimp only at hmb
    obtain ⟨mb0, hmb0, hfmb⟩ := List.mem_map.mp hmb
    have h0 := hnn mb0 hmb0
    unfold countersNonneg at h0 ⊢
    subst hfmb
    refine ⟨h0.1, ?_, h0.2.2.1, ?_⟩ <;> dsimp only <;> omega

/-- Helper: counters stay non-negative across `batchDelete` (every
adjustment is clamped at zero). -/
theorem countersNonneg_batchDeleteRun (s : EmailStore)
    (hnn : ∀ mb ∈ s.mailboxes, countersNonneg mb) :
    ∀ mb ∈ (batchDeleteRun s).1.mailboxes, countersNonneg mb := by
  unfold batchDeleteRun
  split
  · exact hnn
  · intro mb hmb
    dsimp only at hmb
    obtain ⟨mb0, hmb0, hfmb⟩ := List.mem_map.mp hmb
    unfold countersNonneg
    subst hfmb
    refine ⟨?_, ?_, ?_, ?_⟩ <;> dsimp only <;> omega

/-- Helper: `batchMoveToMailbox` never touches the mailbox list. -/
theorem batchMoveToMailboxRun_mailboxes (s : EmailStore) (dest : String)
    (epp : Nat) (page : EmailPage) :
    (batchMoveToMailboxRun s dest epp page).1.mailboxes = s.mailboxes := by
  unfold batchMoveToMailboxRun
  split
  · rfl
  · rfl

/-- Helper: counters stay non-negative across `batchMoveToMailbox` (which
leaves them unchanged). -/
theorem countersNonneg_batchMoveToMailboxRun (s : EmailStore) (dest : String)
    (epp : Nat) (page : EmailPage)
    (hnn : ∀ mb ∈ s.mailboxes, countersNonneg mb) :
    ∀ mb ∈ (batchMoveToMailboxRun s dest epp page).1.mailboxes, countersNonneg mb := by
  rw [batchMoveToMailboxRun_mailboxes]
  exact hnn

/-- C1 counterexample: on the scenario store the selected unread email `a`
is a member of Inbox only, yet `batchMoveToMailbox` (a batch variant that
removes it from the page and refetches) leaves every mailbox counter
unchanged — Inbox keeps `totalEmails = 5` where the claimed per-transition
delta demands 4. -/
theorem counter_delta_cex :
    (batchMoveToMailboxRun sampleStore "archive" 50 emptyPage).1.mailboxes =
      sampleStore.mailboxes ∧
    sampleStore.selectedEmailIds = ["a"] ∧
    sampleStore.emails.map (fun e => e.mailboxIds) = [["inbox"]] ∧
    sampleStore.emails.map (fun e => e.seen) = [false] ∧
    (batchMoveToMailboxRun sampleStore "archive" 50 emptyPage).1.emails = [] ∧
    sampleStore.mailboxes.map (fun mb => mb.totalEmails) = [5, 3] ∧
    ¬ (batchMoveToMailboxRun sampleStore "archive" 50 emptyPage).1.mailboxes.map
        (fun mb => mb.totalEmails) = [4, 3] := by
  refine ⟨by decide, by decide, by decide, by decide, by decide, by decide, by decide⟩

/-- Helper: the clamped unread-counter update equals the exact delta when
the counters can absorb it. -/
theorem unreadClamp_eq (mb : Mailbox) (d : Int)
    (h1 : 0 ≤ mb.unreadEmails + d) (h2 : 0 ≤ mb.unreadThreads + d) :
    ({ mb with
        unreadEmails := max 0 (mb.unreadEmails + d)
        unreadThreads := max 0 (mb.unreadThreads + d) } : Mailbox) =
      { mb with
        unreadEmails := mb.unreadEmails + d
        unreadThreads := mb.unreadThreads + d } := by
  have e1 : max 0 (mb.unreadEmails + d) = mb.unreadEmails + d := by omega
  have e2 : max 0 (mb.unreadThreads + d) = mb.unreadThreads + d := by omega
  rw [e1, e2]

/-- Helper: the clamped leave-side counter update equals the exact spec
delta when the counters can absorb it. -/
theorem leaveClamp_eq (mb : Mailbox) (seen : Bool)
    (h1 : 1 ≤ mb.totalEmails) (h3 : 1 ≤ mb.totalThreads)
    (h2 : seen = false → 1 ≤ mb.unreadEmails ∧ 1 ≤ mb.unreadThreads) :
    ({ mb with
        totalEmails := max 0 (mb.totalEmails - 1)
        unreadEmails := if !seen then max 0 (mb.unreadEmails - 1) else mb.unreadEmails
        totalThreads := max 0 (mb.totalThreads - 1)
        unreadThreads := if !seen then max 0 (mb.unreadThreads - 1) else mb.unreadThreads } : Mailbox) =
      specLeaveDelta seen mb := by
  unfold specLeaveDelta
  have e1 : max 0 (mb.totalEmails - 1) = mb.totalEmails - 1 := by omega
  have e3 : max 0 (mb.totalThreads - 1) = mb.totalThreads - 1 := by omega
  cases seen with
  | true => simp [e1, e3]
  | false =>
    obtain ⟨hu, hut⟩ := h2 rfl
    have e2 : max 0 (mb.unreadEmails - 1) = mb.unreadEmails - 1 := by omega
    have e4 : max 0 (mb.unreadThreads - 1) = mb.unreadThreads - 1 := by omega
    simp [e1, e2, e3, e4]

/-- Helper: the enter-side counter update (never clamped) equals the exact
spec delta. -/
theorem enterDelta_eq (mb : Mailbox) (seen : Bool) :
    ({ mb with
        totalEmails := mb.totalEmails + 1
        unreadEmails := if !seen then mb.unreadEmails + 1 else mb.unreadEmails
        totalThreads := mb.totalThreads + 1
        unreadThreads := if !seen then mb.unreadThreads + 1 else mb.unreadThreads } : Mailbox) =
      specEnterDelta seen mb := by
  cases seen <;> rfl

/-- C1 (amended): `markAsRead`, `deleteEmail` (trash and permanent mode),
`moveToMailbox`, `batchMarkAsRead` and `batchDelete` adjust every affected
mailbox's counters by exactly the signed delta implied by the single
transition (decrements assume the starting counters can absorb them — the
implementation clamps at zero otherwise), `batchMoveToMailbox` performs no
counter adjustment, and after every operation all four counters of every
mailbox remain non-negative. The trash-move conclusion specializes to the
scenario Inbox `unreadEmails -1`, Trash `unreadEmails +1` / `totalEmails
+1`. -/
theorem counter_delta_exact
    (s : EmailStore) (emailId dest : String) (read : Bool) (e : Email)
    (trashMb : Mailbox)
    (hfind : s.emails.find? (fun x => x.id == emailId) = some e)
    (hnn : ∀ mb ∈ s.mailboxes, countersNonneg mb)
    (hmem : ∀ mb ∈ s.mailboxes, e.mailboxIds.contains mb.id = true →
      1 ≤ mb.totalEmails ∧ 1 ≤ mb.totalThreads ∧
      (e.seen = false → 1 ≤ mb.unreadEmails ∧ 1 ≤ mb.unreadThreads)) :
    (e.seen = !read →
     s.processingReadStatus.contains (processingKey emailId read) = false →
      (markAsReadRun s emailId read).1.mailboxes =
        s.mailboxes.map (fun mb =>
          if e.mailboxIds.contains mb.id then specUnreadDelta read mb else mb)) ∧
    (findTrashMailbox s.mailboxes (selectedAccountId s) = some trashMb →
      (deleteEmailRun s emailId DeleteAction.trash).1.mailboxes =
        s.mailboxes.map (fun mb =>
          if e.mailboxIds.contains mb.id then specLeaveDelta e.seen mb
          else if mb.id == trashMb.id then specEnterDelta e.seen mb
          else mb)) ∧
    ((deleteEmailRun s emailId DeleteAction.permanent).1.mailboxes =
      s.mailboxes.map (fun mb =>
        if e.mailboxIds.contains mb.id then specLeaveDelta e.seen mb else mb)) ∧
    ((moveToMailboxRun s emailId dest).1.mailboxes =
      s.mailboxes.map (fun mb =>
        if e.mailboxIds.contains mb.id then specLeaveDelta e.seen mb
        else if mb.id == dest then specEnterDelta e.seen mb
        else mb)) ∧
    (s.selectedEmailIds = [emailId] →
     s.emails.filter (fun x => x.id == emailId) = [e] →
     e.seen = !read →
      (batchMarkAsReadRun s read).1.mailboxes =
        s.mailboxes.map (fun mb =>
          if e.mailboxIds.contains mb.id then specUnreadDelta read mb else mb)) ∧
    (s.selectedEmailIds = [emailId] →
     s.emails.filter (fun x => x.id == emailId) = [e] →
      (batchDeleteRun s).1.mailboxes =
        s.mailboxes.map (fun mb =>
          if e.mailboxIds.contains mb.id then specLeaveDelta e.seen mb else mb)) ∧
    ((∀ mb ∈ (markAsReadRun s emailId read).1.mailboxes, countersNonneg mb) ∧
     (∀ action, ∀ mb ∈ (deleteEmailRun s emailId action).1.mailboxes, countersNonneg mb) ∧
     (∀ mb ∈ (moveToMailboxRun s emailId dest).1.mailboxes, countersNonneg mb) ∧
     (∀ mb ∈ (batchMarkAsReadRun s read).1.mailboxes, countersNonneg mb) ∧
     (∀ mb ∈ (batchDeleteRun s).1.mailboxes, countersNonneg mb) ∧
     (∀ (epp : Nat) (page : EmailPage),
        ∀ mb ∈ (batchMoveToMailboxRun s dest epp page).1.mailboxes, countersNonneg mb)) := by
  refine ⟨?_, ?_, ?_, ?_, ?_, ?_,
    countersNonneg_markAsReadRun s emailId read hnn,
    fun action => countersNonneg_deleteEmailRun s emailId action hnn,
    countersNonneg_moveToMailboxRun s emailId dest hnn,
    countersNonneg_batchMarkAsReadRun s read hnn,
    countersNonneg_batchDeleteRun s hnn,
    fun epp page => countersNonneg_batchMoveToMailboxRun s dest epp page hnn⟩
  · intro hseen hkey
    have hsb : (e.seen == read) = false := by
      rw [hseen]
      cases read <;> rfl
    have hstart : markAsReadStart s emailId read =
        some ({ s with processingReadStatus :=
                  s.processingReadStatus ++ [processingKey emailId read] },
              ClientCall.markAsRead emailId read (selectedAccountId s)) := by
      unfold markAsReadStart
      rw [if_neg (by rw [hkey]; exact Bool.false_ne_true), hfind]
      dsimp only
      rw [if_neg (by rw [hsb]; exact Bool.false_ne_true)]
    simp only [markAsReadRun, hstart]
    unfold markAsReadFinish
    simp only [hfind, hsb, Bool.false_eq_true, if_false]
    apply List.map_congr_left
    intro mb hmb
    by_cases hc : e.mailboxIds.contains mb.id = true
    · rw [if_pos hc, if_pos hc]
      have hd1 : 0 ≤ mb.unreadEmails + (if read then (-1 : Int) else 1) := by
        split
        · rename_i hr
          have hu := (hmem mb hmb hc).2.2 (by rw [hseen, hr]; rfl)
          omega
        · have := (hnn mb hmb).2.1
          omega
      have hd2 : 0 ≤ mb.unreadThreads + (if read then (-1 : Int) else 1) := by
        split
        · rename_i hr
          have hu := (hmem mb hmb hc).2.2 (by rw [hseen, hr]; rfl)
          omega
        · have := (hnn mb hmb).2.2.2
          omega
      exact unreadClamp_eq mb (if read then -1 else 1) hd1 hd2
    · rw [if_neg hc, if_neg hc]
  · intro htrash
    unfold deleteEmailRun
    rw [hfind]
    dsimp only
    rw [if_pos rfl, htrash]
    dsimp only
    apply List.map_congr_left
    intro mb hmb
    dsimp only
    by_cases hc : e.mailboxIds.contains mb.id = true
    · rw [if_pos hc, if_pos hc]
      rcases hmem mb hmb hc with ⟨h1, h3, h2⟩
      exact leaveClamp_eq mb e.seen h1 h3 h2
    · rw [if_neg hc, if_neg hc]
      by_cases hcc : (mb.id == trashMb.id) = true
      · rw [if_pos hcc, if_pos hcc]
        exact enterDelta_eq mb e.seen
      · rw [if_neg hcc, if_neg hcc]
  · unfold deleteEmailRun
    rw [hfind]
    dsimp only
    rw [if_neg (by decide)]
    dsimp only
    cases hs : e.seen with
    | true =>
      simp only [hs, Bool.not_true, Bool.false_eq_true, if_false]
      apply List.map_congr_left
      intro mb hmb
      by_cases hc : e.mailboxIds.contains mb.id = true
      · rw [if_pos hc, if_pos hc]
        rcases hmem mb hmb hc with ⟨h1, h3, _⟩
        have e1 : max 0 (mb.totalEmails - 1) = mb.totalEmails - 1 := by omega
        have e3 : max 0 (mb.totalThreads - 1) = mb.totalThreads - 1 := by omega
        rw [e1, e3]
        rfl
      · rw [if_neg hc, if_neg hc]
    | false =>
      simp only [hs, Bool.not_false, if_true]
      apply List.map_congr_left
      intro mb hmb
      by_cases hc : e.mailboxIds.contains mb.id = true
      · rw [if_pos hc, if_pos hc]
        rcases hmem mb hmb hc with ⟨h1, h3, h2⟩
        rcases h2 hs with ⟨hu, hut⟩
        have e1 : max 0 (mb.totalEmails - 1) = mb.totalEmails - 1 := by omega
        have e2 : max 0 (mb.unreadEmails - 1) = mb.unreadEmails - 1 := by omega
        have e3 : max 0 (mb.totalThreads - 1) = mb.totalThreads - 1 := by omega
        have e4 : max 0 (mb.unreadThreads - 1) = mb.unreadThreads - 1 := by omega
        rw [e1, e2, e3, e4]
        rfl
      · rw [if_neg hc, if_neg hc]
  · unfold moveToMailboxRun
    rw [hfind]
    dsimp only
    apply List.map_congr_left
    intro mb hmb
    by_cases hc : e.mailboxIds.contains mb.id = true
    · rw [if_pos hc, if_pos hc]
      rcases hmem mb hmb hc with ⟨h1, h3, h2⟩
      exact leaveClamp_eq mb e.seen h1 h3 h2
    · rw [if_neg hc, if_neg hc]
      by_cases hcc : (mb.id == dest) = true
      · rw [if_pos hcc, if_pos hcc]
        exact enterDelta_eq mb e.seen
      · rw [if_neg hcc, if_neg hcc]
  · intro hsel hfilter hseen
    unfold batchMarkAsReadRun
    rw [hsel]
    rw [if_neg (by simp)]
    dsimp only
    have hfineq : s.emails.filter (fun x => [emailId].contains x.id) = [e] := by
      rw [← hfilter]
      apply List.filter_congr
      intro x _
      simp only [List.contains_cons, List.contains_nil, Bool.or_false]
    rw [hfineq]
    apply List.map_congr_left
    intro mb hmb
    dsimp only
    simp only [List.foldl_cons, List.foldl_nil]
    by_cases hc : e.mailboxIds.contains mb.id = true
    · rw [if_pos hc, if_pos hc]
      have hsne : (e.seen != read) = true := by
        rw [hseen]
        cases read <;> rfl
      rw [if_pos hsne]
      have h0 := hnn mb hmb
      unfold countersNonneg at h0
      have hd1 : 0 ≤ mb.unreadEmails + (0 + if read then (-1 : Int) else 1) := by
        split
        · rename_i hr
          have hu := (hmem mb hmb hc).2.2 (by rw [hseen, hr]; rfl)
          omega
        · omega
      have hd2 : 0 ≤ mb.unreadThreads + (0 + if read then (-1 : Int) else 1) := by
        split
        · rename_i hr
          have hu := (hmem mb hmb hc).2.2 (by rw [hseen, hr]; rfl)
          omega
        · omega
      have hcl := unreadClamp_eq mb (0 + if read then (-1 : Int) else 1) hd1 hd2
      rw [hcl]
      unfold specUnreadDelta
      simp only [Int.zero_add]
    · rw [if_neg hc, if_neg hc]
      have h0 := hnn mb hmb
      have e1 : max 0 (mb.unreadEmails + 0) = mb.unreadEmails := by
        have := h0.2.1
        omega
      have e2 : max 0 (mb.unreadThreads + 0) = mb.unreadThreads := by
        have := h0.2.2.2
        omega
      rw [e1, e2]
  · intro hsel hfilter
    unfold batchDeleteRun
    rw [hsel]
    rw [if_neg (by simp)]
    dsimp only
    have hfineq : s.emails.filter (fun x => [emailId].contains x.id) = [e] := by
      rw [← hfilter]
      apply List.filter_congr
      intro x _
      simp only [List.contains_cons, List.contains_nil, Bool.or_false]
    rw [hfineq]
    apply List.map_congr_left
    intro mb hmb
    dsimp only
    simp only [List.foldl_cons, List.foldl_nil]
    have h0 := hnn mb hmb
    unfold countersNonneg at h0
    by_cases hc : e.mailboxIds.contains mb.id = true
    · rw [if_pos hc, if_pos hc]
      rcases hmem mb hmb hc with ⟨h1, h3, h2⟩
      cases hs : e.seen with
      | true =>
        simp only [hs, Bool.not_true, Bool.false_eq_true, if_false]
        have e1 : max 0 (mb.totalEmails + ((0 : Int) - 1)) = mb.totalEmails - 1 := by omega
        have e2 : max 0 (mb.unreadEmails + (0 : Int)) = mb.unreadEmails := by omega
        have e3 : max 0 (mb.totalThreads + ((0 : Int) - 1)) = mb.totalThreads - 1 := by omega
        have e4 : max 0 (mb.unreadThreads + (0 : Int)) = mb.unreadThreads := by omega
        rw [e1, e2, e3, e4]
        rfl
      | false =>
        simp only [hs, Bool.not_false, if_true]
        rcases h2 hs with ⟨hu, hut⟩
        have e1 : max 0 (mb.totalEmails + ((0 : Int) - 1)) = mb.totalEmails - 1 := by omega
        have e2 : max 0 (mb.unreadEmails + ((0 : Int) - 1)) = mb.unreadEmails - 1 := by omega
        have e3 : max 0 (mb.totalThreads + ((0 : Int) - 1)) = mb.totalThreads - 1 := by omega
        have e4 : max 0 (mb.unreadThreads + ((0 : Int) - 1)) = mb.unreadThreads - 1 := by omega
        rw [e1, e2, e3, e4]
        rfl
    · rw [if_neg hc, if_neg hc]
      have e1 : max 0 (mb.totalEmails + (0 : Int)) = mb.totalEmails := by omega
      have e2 : max 0 (mb.unreadEmails + (0 : Int)) = mb.unreadEmails := by omega
      have e3 : max 0 (mb.totalThreads + (0 : Int)) = mb.totalThreads := by omega
      have e4 : max 0 (mb.unreadThreads + (0 : Int)) = mb.unreadThreads := by omega
      rw [e1, e2, e3, e4]

/-- C1 witness: the scenario store — marking the unread Inbox email read
drops Inbox unread counters to 1, and trash-deleting it yields Inbox
`{4,1,4,1}` and Trash `{4,2,4,2}` (unread −1 on Inbox, unread +1 and total
+1 on Trash). -/
theorem counter_delta_exact_witness :
    ((markAsReadRun sampleStore "a" true).1.mailboxes.map
        (fun mb => (mb.id, mb.unreadEmails, mb.unreadThreads))) =
      [("inbox", 1, 1), ("trash", 1, 1)] ∧
    ((deleteEmailRun sampleStore "a" DeleteAction.trash).1.mailboxes.map
        (fun mb => (mb.id, mb.totalEmails, mb.unreadEmails, mb.totalThreads, mb.unreadThreads))) =
      [("inbox", 4, 1, 4, 1), ("trash", 4, 2, 4, 2)] := by
  have h := counter_delta_exact sampleStore "a" "archive" true
    (sampleEmail "a" "t1" 5 false)
    (sampleMailbox "trash" (some "trash") 3 1 3 1 false)
    (by decide) (by decide) (by decide)
  constructor
  · rw [h.1 (by decide) (by decide)]
    decide
  · rw [h.2.1 (by decide)]
    decide

end JmapWebmail
